import Mathlib

/-!
# SuitableStruct: serialization, integrity frame and version migration

A shallow embedding of `Serializer.h` and `Internals/BufferReader.h`.

* A `Buffer` is a list of octets; fixed-width integers are written little-endian.
* `size_t` values are natural numbers; every `size_t` operation that can wrap is
  written with an explicit reduction modulo `2 ^ sizeBits`.
* Code that can throw returns the error (if any) together with the state the
  call leaves behind: the cursor and, for decoders, the destination object.
  A failed `assert` is the error `Err.assertion`.
* A C++ type taking part in serialization is described by a `TypeDesc`.
-/

namespace SuitableStruct

set_option autoImplicit false

/-! ## Bytes, buffers, platform -/

/-- One octet. -/
abbrev Byte := Fin 256

/-- The byte container `Buffer`, as the sequence of its bytes. -/
abbrev Buffer := List Byte

/-- The ways a call can fail. -/
inductive Err
  /-- The bounds error raised by `BufferReader::checkPosition`. -/
  | bounds
  /-- The error raised by `Internal::throwIntegrity`. -/
  | integrity
  /-- The error raised by `Internal::throwTooLarge`. -/
  | tooLarge
  /-- A failed `assert`. -/
  | assertion
  /-- The exception `std::bad_optional_access` of `optional::value`. -/
  | badOptionalAccess
deriving DecidableEq, Repr

/-- What the code takes from its platform and from the translation units that
define `ssMagic` and `Buffer::hash`: the width of `size_t`, the format magic,
and the content checksum (its `uint32_t` result is `hashFn` reduced modulo `2 ^ 32`). -/
structure Env where
  sizeBits : Nat
  ssMagic : Buffer
  hashFn : Buffer → Nat

/-- The number of `size_t` values, `2 ^ sizeBits`. -/
def Env.sizeMod (E : Env) : Nat := 2 ^ E.sizeBits

/-- The constant `std::numeric_limits<size_t>::max()`. -/
def Env.sizeMax (E : Env) : Nat := E.sizeMod - 1

/-- Conversion of an unsigned value to `size_t`. -/
def Env.toSize (E : Env) (x : Nat) : Nat := x % E.sizeMod

/-- Addition of two `size_t` values. -/
def Env.addSize (E : Env) (a b : Nat) : Nat := (a + b) % E.sizeMod

/-- Subtraction of two `size_t` values (wraps around below zero). -/
def Env.subSize (E : Env) (a b : Nat) : Nat :=
  (a % E.sizeMod + (E.sizeMod - b % E.sizeMod)) % E.sizeMod

/-- Conversion of an unsigned value to `int64_t`. -/
def toInt64 (x : Nat) : Int :=
  if x % 2 ^ 64 < 2 ^ 63 then ((x % 2 ^ 64 : Nat) : Int) else ((x % 2 ^ 64 : Nat) : Int) - 2 ^ 64

/-- Modelled from the spec: `Buffer::hash`, the 32-bit content checksum, "a pure
deterministic function of the bytes". -/
def Env.hash (E : Env) (b : Buffer) : Nat := E.hashFn b % 2 ^ 32

/-- The `width` low-order bytes of `x`, least significant first: the object
representation of a fixed-width unsigned integer on a little-endian machine. -/
def toLE : Nat → Nat → Buffer
  | 0, _ => []
  | width + 1, x => ⟨x % 256, Nat.mod_lt x (by decide)⟩ :: toLE width (x / 256)

/-- The unsigned integer whose little-endian object representation is `bs`. -/
def fromLE : Buffer → Nat
  | [] => 0
  | b :: bs => b.val + 256 * fromLE bs

/-- Modelled from the spec: `Buffer::write` for a fixed-width integer of `width`
bytes ("all integers little-endian, fixed width"). -/
def Buffer.write (buf : Buffer) (width : Nat) (x : Nat) : Buffer := buf ++ toLE width x

/-- Modelled from the spec: `Buffer::write(const Buffer&)` and `operator+=`,
concatenation of two buffers. -/
def Buffer.append (buf : Buffer) (rhs : Buffer) : Buffer := buf ++ rhs

/-! ## BufferReader -/

/-- The members of `BufferReader`. -/
structure BufferReader where
  m_buffer : Buffer
  m_offset : Nat
  m_offsetStart : Nat
  m_offsetEnd : Option Nat
deriving DecidableEq

namespace BufferReader

def offsetStart (r : BufferReader) : Nat := r.m_offsetStart

def offsetEnd (r : BufferReader) : Nat := r.m_offsetEnd.getD r.m_buffer.length

def size (E : Env) (r : BufferReader) : Nat := E.subSize r.offsetEnd r.offsetStart

def position (r : BufferReader) : Nat := r.m_offset

def rest (E : Env) (r : BufferReader) : Nat := E.subSize (r.size E) r.position

/-- The bytes at `cdataSrc()`: the underlying buffer from `m_offsetStart` on. -/
def cdataSrc (r : BufferReader) : Buffer := r.m_buffer.drop r.m_offsetStart

/-- The bytes at `cdata()`: the underlying buffer from `m_offsetStart + m_offset` on. -/
def cdata (r : BufferReader) : Buffer := r.m_buffer.drop (r.m_offsetStart + r.m_offset)

def bufferMapped (E : Env) (r : BufferReader) : Buffer := r.cdataSrc.take (r.size E)

def bufferRest (E : Env) (r : BufferReader) : Buffer := r.cdata.take (r.rest E)

/-- Modelled from the spec: `BufferReader::hash`, the checksum of the bytes of
the cursor's region ("recompute checksum over `body`"). -/
def hash (E : Env) (r : BufferReader) : Nat := E.hash (r.bufferMapped E)

/-- Modelled from the spec: `BufferReader::checkPosition`, "any attempt to read
past the region's end fails (bounds violation)". -/
def checkPosition (E : Env) (r : BufferReader) (sz : Nat) : Option Err :=
  if sz > r.rest E then some Err.bounds else none

/-- The constructor; `Except.error Err.assertion` when one of its assertions fails. -/
def new (E : Env) (buffer : Buffer) (offsetStart len offsetEnd : Option Nat) :
    Except Err BufferReader :=
  if (!len.isSome && !offsetEnd.isSome) || (xor len.isSome offsetEnd.isSome) then
    let start := offsetStart.getD 0
    let r : BufferReader :=
      { m_buffer := buffer
        m_offset := 0
        m_offsetStart := start
        m_offsetEnd := match len with
          | some l => some (E.addSize start l)
          | none => offsetEnd }
    match r.m_offsetEnd with
    | some e =>
      if r.m_offsetStart ≤ e then
        if r.position ≤ r.size E then Except.ok r else Except.error Err.assertion
      else Except.error Err.assertion
    | none =>
      if r.position ≤ r.size E then Except.ok r else Except.error Err.assertion
  else Except.error Err.assertion

def seek (E : Env) (r : BufferReader) (pos : Nat) : Option Err × BufferReader :=
  if pos ≤ r.size E then (none, { r with m_offset := pos }) else (some Err.assertion, r)

def advance (E : Env) (r : BufferReader) (delta : Int) : Option Err × BufferReader :=
  if 0 ≤ toInt64 r.m_offset + delta then
    r.seek E (((r.m_offset : Int) + delta) % (E.sizeMod : Int)).toNat
  else (some Err.assertion, r)

def resetPosition (r : BufferReader) : BufferReader := { r with m_offset := 0 }

/-- The overload `readRaw(void* buffer, size_t sz)`; the bytes copied to
`buffer` are returned. -/
def readRawInto (E : Env) (r : BufferReader) (sz : Nat) : Except Err Buffer × BufferReader :=
  match r.checkPosition E sz with
  | some e => (Except.error e, r)
  | none =>
    let copied := r.cdata.take sz
    match r.advance E (toInt64 sz) with
    | (some e, r1) => (Except.error e, r1)
    | (none, r1) => (Except.ok copied, r1)

/-- The overload `readRaw(size_t sz)` returning the sub-region cursor. -/
def readRaw (E : Env) (r : BufferReader) (sz : Nat) : Except Err BufferReader × BufferReader :=
  match r.checkPosition E sz with
  | some e => (Except.error e, r)
  | none =>
    match BufferReader.new E r.m_buffer (some (E.addSize r.m_offsetStart r.m_offset)) (some sz) none with
    | Except.error e => (Except.error e, r)
    | Except.ok result =>
      match r.advance E (toInt64 sz) with
      | (some e, r1) => (Except.error e, r1)
      | (none, r1) => (Except.ok result, r1)

/-- Both overloads of `read` for a fundamental type of `width` bytes: the value read. -/
def read (E : Env) (r : BufferReader) (width : Nat) : Except Err Nat × BufferReader :=
  match r.readRawInto E width with
  | (Except.error e, r1) => (Except.error e, r1)
  | (Except.ok bytes, r1) => (Except.ok (fromLE bytes), r1)

end BufferReader

/-! ## Type descriptors -/

/-- The outcome of a decoding call: the error it raised (if any), the cursor and
the destination object as the call leaves them. -/
structure Res (α : Type) where
  err : Option Err
  buf : BufferReader
  obj : α

/-- What the serializer knows statically about a type `T`:
`has_ssVersions_v<T>`, `std::is_class_v<T>`, the shapes
`std::tuple_element_t<I, T::ssVersions>` with `T` itself in slot
`SSVersionDirect<T>::version` (a type without history uses that slot only),
the default constructors, the overloads of `ssSaveImpl` and `ssLoadImpl` selected
for each shape, and `ssConvertFrom` of shape `I + 1` (receiver first, source
second, the receiver afterwards as result). -/
structure TypeDesc : Type 1 where
  has_ssVersions : Bool
  is_class : Bool
  V : Nat → Type
  version : Nat
  ctor : (I : Nat) → V I
  saveImpl : V version → Buffer
  loadImpl : (I : Nat) → BufferReader → V I → Res (V I)
  ssConvertFrom : (I : Nat) → V (I + 1) → V I → V (I + 1)

/-- The type `T` itself. -/
abbrev TypeDesc.T (D : TypeDesc) : Type := D.V D.version

/-- Modelled from the spec: `tuple_type_index<T::ssVersions, T>::value`; "`T`
occupies the last, current slot". -/
def TypeDesc.neededVer (D : TypeDesc) : Nat := D.version

/-- Modelled from the spec: `ssVersion<T>()`. The tag "carries the index of the
version that was serialized" for a type with history, is "present but always
zero for plain structured types", "absent for primitive/non-structured types". -/
def ssVersion (D : TypeDesc) : Option Nat :=
  if D.has_ssVersions then some (D.version % 256)
  else if D.is_class then some 0
  else none

/-! ## Serializer.h -/

def ssWriteVersion (D : TypeDesc) (buf : Buffer) : Buffer :=
  match ssVersion D with
  | some ver => buf.write 1 ver
  | none => buf

/-- The three overloads of `ssReadVersion`. -/
def ssReadVersion (E : Env) (D : TypeDesc) (buf : BufferReader) :
    Except Err (Option Nat) × BufferReader :=
  if !D.has_ssVersions && !D.is_class then (Except.ok none, buf)
  else if !D.has_ssVersions && D.is_class then
    match buf.read E 1 with
    | (Except.error e, b) => (Except.error e, b)
    | (Except.ok result, b) =>
      if result = 0 then (Except.ok (some result), b) else (Except.error Err.assertion, b)
  else
    match buf.read E 1 with
    | (Except.error e, b) => (Except.error e, b)
    | (Except.ok result, b) => (Except.ok (some result), b)

def ssSave (E : Env) (D : TypeDesc) (obj : D.T) (protectedMode : Bool) : Buffer :=
  if protectedMode then
    let part : Buffer := ssWriteVersion D []
    let part := part.write 4 0
    let part := part.append (D.saveImpl obj)
    let result : Buffer := Buffer.write [] 8 part.length
    let result := result.write 4 (E.hash part)
    let result := result.append E.ssMagic
    let result := result.write 8 0
    result.append part
  else
    let result : Buffer := ssWriteVersion D []
    result.append (D.saveImpl obj)

/-- A value of shape `I` used as a value of shape `J`, the two indices being equal. -/
def TypeDesc.recast (D : TypeDesc) {I J : Nat} (h : I = J) (x : D.V I) : D.V J :=
  cast (congrArg D.V h) x

/-- The overloads of `ssLoadAndConvertIter2<I + 1>(obj, srcObj)`, `srcObj` of shape `I`. -/
def ssLoadAndConvertIter2 (D : TypeDesc) (I : Nat) (obj : D.T) (srcObj : D.V I) :
    Option Err × D.T :=
  if h : I + 1 = D.version then
    (none, D.recast h (D.ssConvertFrom I (D.recast h.symm obj) srcObj))
  else if I + 1 < D.version then
    let tempObj := D.ssConvertFrom I (D.ctor (I + 1)) srcObj
    ssLoadAndConvertIter2 D (I + 1) obj tempObj
  else (some Err.assertion, obj)
termination_by D.version - I

/-- The overloads of `ssLoadAndConvertIter<I>(buffer, obj, serializedVer)`. -/
def ssLoadAndConvertIter (D : TypeDesc) (I : Nat) (buffer : BufferReader) (obj : D.T)
    (serializedVer : Nat) : Res D.T :=
  if I ≤ D.version then
    if I < serializedVer then
      ssLoadAndConvertIter D (I + 1) buffer obj serializedVer
    else if I = serializedVer ∧ I = D.neededVer then
      D.loadImpl D.version buffer obj
    else if I = serializedVer ∧ I ≠ D.neededVer then
      let r := D.loadImpl I buffer (D.ctor I)
      match r.err with
      | some e => { err := some e, buf := r.buf, obj := obj }
      | none =>
        let c := ssLoadAndConvertIter2 D I obj r.obj
        { err := c.1, buf := r.buf, obj := c.2 }
    else { err := none, buf := buffer, obj := obj }
  else { err := some Err.assertion, buf := buffer, obj := obj }
termination_by D.version + 1 - I

/-- Both overloads of `ssLoadAndConvert`. -/
def ssLoadAndConvert (D : TypeDesc) (buffer : BufferReader) (obj : D.T) (ver : Option Nat) :
    Res D.T :=
  if D.has_ssVersions then
    match ver with
    | some v => ssLoadAndConvertIter D 0 buffer obj v
    | none => D.loadImpl D.version buffer obj
  else if D.is_class then
    match ver with
    | none => { err := some Err.badOptionalAccess, buf := buffer, obj := obj }
    | some v =>
      if v = 0 then D.loadImpl D.version buffer obj
      else { err := some Err.assertion, buf := buffer, obj := obj }
  else
    match ver with
    | none => D.loadImpl D.version buffer obj
    | some _ => { err := some Err.assertion, buf := buffer, obj := obj }

def ssLoad (E : Env) (D : TypeDesc) (buffer : BufferReader) (obj : D.T) (protectedMode : Bool) :
    Res D.T :=
  if protectedMode then
    let temp : D.T := D.ctor D.version
    match buffer.read E 8 with
    | (Except.error e, b) => { err := some e, buf := b, obj := obj }
    | (Except.ok size, b1) =>
    match b1.read E 4 with
    | (Except.error e, b) => { err := some e, buf := b, obj := obj }
    | (Except.ok hash, b2) =>
    match b2.readRaw E (E.toSize E.ssMagic.length) with
    | (Except.error e, b) => { err := some e, buf := b, obj := obj }
    | (Except.ok gotSsMagic, b3) =>
    match b3.read E 8 with
    | (Except.error e, b) => { err := some e, buf := b, obj := obj }
    | (Except.ok ssVersionAndFlags, b4) =>
    if gotSsMagic.bufferMapped E ≠ E.ssMagic ∨ ssVersionAndFlags ≠ 0 then
      { err := some Err.integrity, buf := b4, obj := obj }
    else if size > E.sizeMax then
      { err := some Err.tooLarge, buf := b4, obj := obj }
    else
    match b4.readRaw E (E.toSize size) with
    | (Except.error e, b) => { err := some e, buf := b, obj := obj }
    | (Except.ok groupData, b5) =>
    let actualHash := groupData.hash E
    if hash ≠ actualHash then
      { err := some Err.integrity, buf := b5, obj := obj }
    else
    match ssReadVersion E D groupData with
    | (Except.error e, _) => { err := some e, buf := b5, obj := obj }
    | (Except.ok ver, g1) =>
    match g1.read E 4 with
    | (Except.error e, _) => { err := some e, buf := b5, obj := obj }
    | (Except.ok _, g2) =>
    let r := ssLoadAndConvert D g2 temp ver
    match r.err with
    | some e => { err := some e, buf := b5, obj := obj }
    | none => { err := none, buf := b5, obj := r.obj }
  else
    match ssReadVersion E D buffer with
    | (Except.error e, b) => { err := some e, buf := b, obj := obj }
    | (Except.ok ver, b) => ssLoadAndConvert D b obj ver

/-! ### The field-list strategy -/

/-- One element of the tuple of references returned by `ssTuple()`: the
descriptor of the field's type and the reference to the field inside the object. -/
structure Field (α : Type) : Type 1 where
  D : TypeDesc
  get : α → D.T
  set : D.T → α → α

/-- The overloads of `ssSaveImplViaTuple<I>(buffer, args)`; the list holds the
elements of `args` from index `I` on and `obj` is the object they refer to. -/
def ssSaveImplViaTuple {α : Type} (E : Env) (obj : α) : List (Field α) → Buffer → Buffer
  | [], buffer => buffer
  | f :: args, buffer =>
    ssSaveImplViaTuple E obj args (buffer.append (ssSave E f.D (f.get obj) false))

/-- The overloads of `ssLoadImplViaTuple<I>(buffer, args)`; the list holds the
elements of `args` from index `I` on, a field is overwritten in place. -/
def ssLoadImplViaTuple {α : Type} (E : Env) : List (Field α) → BufferReader → α → Res α
  | [], buffer, obj => { err := none, buf := buffer, obj := obj }
  | f :: args, buffer, obj =>
    let r := ssLoad E f.D buffer (f.get obj) false
    match r.err with
    | some e => { err := some e, buf := r.buf, obj := f.set r.obj obj }
    | none => ssLoadImplViaTuple E args r.buf (f.set r.obj obj)

/-- The strategy overload resolution selects for a type: its own methods
(`can_ssSaveImpl`), a registered handler (`Handlers<T>::value`), or its field
list (`can_ssTuple`). -/
inductive Strategy (α : Type) : Type 1
  | method (save : α → Buffer) (load : BufferReader → α → Res α)
  | handler (save : α → Buffer) (load : BufferReader → α → Res α)
  | tuple (ssTuple : List (Field α))

/-- The three overloads of `ssSaveImpl`. -/
def ssSaveImpl {α : Type} (E : Env) (s : Strategy α) (obj : α) : Buffer :=
  match s with
  | Strategy.method save _ => save obj
  | Strategy.handler save _ => save obj
  | Strategy.tuple ssTuple => ssSaveImplViaTuple E obj ssTuple []

/-- The three overloads of `ssLoadImpl`. -/
def ssLoadImpl {α : Type} (E : Env) (s : Strategy α) (buf : BufferReader) (obj : α) : Res α :=
  match s with
  | Strategy.method _ load => load buf obj
  | Strategy.handler _ load => load buf obj
  | Strategy.tuple ssTuple => ssLoadImplViaTuple E ssTuple buf obj

/-- The descriptor of a type without `ssVersions` whose strategy is `s`. -/
def plainType {α : Type} (E : Env) (is_class : Bool) (ctor : α) (s : Strategy α) : TypeDesc :=
  { has_ssVersions := false
    is_class := is_class
    V := fun _ => α
    version := 0
    ctor := fun _ => ctor
    saveImpl := ssSaveImpl E s
    loadImpl := fun _ => ssLoadImpl E s
    ssConvertFrom := fun _ self _ => self }

/-! ## Well-formed cursors -/

/-- A buffer length that a `size_t` and a non-negative `int64_t` both hold. -/
def Env.Fits (E : Env) (n : Nat) : Prop := n < E.sizeMod ∧ n < 2 ^ 63

/-- The region invariant of a cursor: the region lies inside the underlying
buffer, the position inside the region, and the buffer's length is a `size_t`. -/
structure BufferReader.WF (E : Env) (r : BufferReader) : Prop where
  start_le : r.m_offsetStart ≤ r.offsetEnd
  end_le : r.offsetEnd ≤ r.m_buffer.length
  pos_le : r.m_offset ≤ r.offsetEnd - r.m_offsetStart
  fits : E.Fits r.m_buffer.length

/-- The cursor `BufferReader(buffer)` over a whole buffer. -/
def BufferReader.over (buffer : Buffer) : BufferReader :=
  { m_buffer := buffer, m_offset := 0, m_offsetStart := 0, m_offsetEnd := none }

/-- The length of the frame header: `payloadSize`, `payloadChecksum`, magic, flags. -/
def Env.headerLen (E : Env) : Nat := 8 + 4 + E.ssMagic.length + 8

/-- The cursor after `sz` more bytes have been consumed. -/
def BufferReader.skip (r : BufferReader) (sz : Nat) : BufferReader :=
  { r with m_offset := r.m_offset + sz }

/-- The sub-region cursor `readRaw(sz)` returns. -/
def BufferReader.sub (r : BufferReader) (sz : Nat) : BufferReader :=
  { m_buffer := r.m_buffer
    m_offset := 0
    m_offsetStart := r.m_offsetStart + r.m_offset
    m_offsetEnd := some (r.m_offsetStart + r.m_offset + sz) }

/-- The statements of protected `ssLoad` that follow the checksum test, for the
payload cursor `groupData` and the outer cursor `b5` left behind it. -/
def ssLoadPayload (E : Env) (D : TypeDesc) (groupData b5 : BufferReader) (obj : D.T) : Res D.T :=
  match ssReadVersion E D groupData with
  | (Except.error e, _) => { err := some e, buf := b5, obj := obj }
  | (Except.ok ver, g1) =>
  match g1.read E 4 with
  | (Except.error e, _) => { err := some e, buf := b5, obj := obj }
  | (Except.ok _, g2) =>
  let r := ssLoadAndConvert D g2 (D.ctor D.version) ver
  match r.err with
  | some e => { err := some e, buf := b5, obj := obj }
  | none => { err := none, buf := b5, obj := r.obj }

/-- The `payloadSize` field of the header found at a cursor. -/
def BufferReader.hdrSize (r : BufferReader) : Nat := fromLE (r.cdata.take 8)

/-- The `payloadChecksum` field of the header found at a cursor. -/
def BufferReader.hdrHash (r : BufferReader) : Nat := fromLE ((r.cdata.drop 8).take 4)

/-- The magic bytes of the header found at a cursor. -/
def BufferReader.hdrMagic (E : Env) (r : BufferReader) : Buffer :=
  (r.cdata.drop 12).take E.ssMagic.length

/-- The reserved flags field of the header found at a cursor. -/
def BufferReader.hdrFlags (E : Env) (r : BufferReader) : Nat :=
  fromLE ((r.cdata.drop (12 + E.ssMagic.length)).take 8)

/-- The wire layout of a frame (spec, section 6): `payloadSize : u64`,
`payloadChecksum : u32`, the magic bytes, `reservedFlags : u64`, the payload. -/
def frameBytes (payloadSize payloadChecksum : Nat) (magic : Buffer) (reservedFlags : Nat)
    (payload : Buffer) : Buffer :=
  toLE 8 payloadSize ++ (toLE 4 payloadChecksum ++ (magic ++ (toLE 8 reservedFlags ++ payload)))

/-- The version tag `ssWriteVersion<T>` writes. -/
def versionTag (D : TypeDesc) : Buffer := ssWriteVersion D []

/-- The payload of a frame: version tag, the reserved `uint32_t` zero, the
bytes of `ssSaveImpl`. -/
def payloadBytes (D : TypeDesc) (v : D.T) : Buffer :=
  versionTag D ++ (toLE 4 0 ++ D.saveImpl v)

/-- The per-type pair round-trips: `ssLoadImpl`, run on a well-formed cursor
whose unread bytes are the bytes of `ssSaveImpl(v)`, completes and leaves `v`
in the destination object. -/
def RoundTrips (E : Env) (D : TypeDesc) : Prop :=
  ∀ (v : D.T) (r : BufferReader) (obj : D.T), r.WF E → r.bufferRest E = D.saveImpl v →
    (D.loadImpl D.version r obj).err = none ∧ (D.loadImpl D.version r obj).obj = v

/-! ## Example platform and types -/

/-- A 64-bit platform with a two-byte magic and the byte sum as checksum. -/
def exEnv : Env :=
  { sizeBits := 64
    ssMagic := [83, 83]
    hashFn := fun b => (b.map Fin.val).sum }

/-- A 32-bit platform with the same magic and checksum. -/
def exEnv32 : Env :=
  { sizeBits := 32
    ssMagic := [83, 83]
    hashFn := fun b => (b.map Fin.val).sum }

/-- The member `ssLoadImpl` of the example class: it reads its one byte. -/
def exLoadByte (E : Env) (buf : BufferReader) (obj : Byte) : Res Byte :=
  match buf.read E 1 with
  | (Except.error e, b) => { err := some e, buf := b, obj := obj }
  | (Except.ok x, b) => { err := none, buf := b, obj := ⟨x % 256, Nat.mod_lt x (by decide)⟩ }

/-- A class without version history holding one byte, with its own
`ssSaveImpl` / `ssLoadImpl` methods. -/
def exClass (E : Env) : TypeDesc :=
  plainType E true (0 : Byte) (Strategy.method (fun v => [v]) (exLoadByte E))

/-- A scalar type without version history, served by a handler. -/
def exScalar (E : Env) : TypeDesc :=
  plainType E false (0 : Byte) (Strategy.handler (fun v => [v]) (exLoadByte E))

/-- The protected frame of the example class value `7` with its last payload
byte changed to `8`. -/
def exCorrupted : Buffer :=
  [6, 0, 0, 0, 0, 0, 0, 0, 7, 0, 0, 0, 83, 83, 0, 0, 0, 0, 0, 0, 0, 0, 0, 0, 0, 0, 0, 8]

/-- A frame header with a wrong magic byte, followed by six payload bytes. -/
def exBadMagic : Buffer :=
  [6, 0, 0, 0, 0, 0, 0, 0, 7, 0, 0, 0, 83, 84, 0, 0, 0, 0, 0, 0, 0, 0, 0, 0, 0, 0, 0, 7]

/-- A frame header declaring `2 ^ 32` payload bytes, with the right magic and
zero flags. -/
def exHuge : Buffer :=
  [0, 0, 0, 0, 1, 0, 0, 0, 7, 0, 0, 0, 83, 83, 0, 0, 0, 0, 0, 0, 0, 0, 0, 0, 0, 0, 0, 7]

/-- The migration chain in the spec's words: from a value of shape `i`, "for
`j = i+1 ..`, construct `Vj` from the previous step's value via a per-type
convert-from-predecessor operation"; `migrate D i k v` is the value of shape
`i + k` after the `k` conversions `i+1, ..., i+k`, each intermediate shape
being default constructed before it converts. -/
def migrate (D : TypeDesc) (i : Nat) : (k : Nat) → D.V i → D.V (i + k)
  | 0, v => v
  | k + 1, v => D.ssConvertFrom (i + k) (D.ctor (i + k + 1)) (migrate D i k v)

/-- The field list of a pair of scalars. -/
def exFields2 (E : Env) : List (Field (Byte × Byte)) :=
  [ { D := exScalar E, get := fun p => p.1, set := fun x p => (x, p.2) },
    { D := exScalar E, get := fun p => p.2, set := fun x p => (p.1, x) } ]

/-- The field list of a triple of scalars. -/
def exFields3 (E : Env) : List (Field (Byte × Byte × Byte)) :=
  [ { D := exScalar E, get := fun p => p.1, set := fun x p => (x, p.2) },
    { D := exScalar E, get := fun p => p.2.1, set := fun x p => (p.1, x, p.2.2) },
    { D := exScalar E, get := fun p => p.2.2, set := fun x p => (p.1, p.2.1, x) } ]

/-- A field-list class without version history: a pair of scalars. -/
def exPair (E : Env) : TypeDesc :=
  plainType E true ((0 : Byte), (0 : Byte)) (Strategy.tuple (exFields2 E))

/-- The shapes of the example history `V0 → V1 → V2`: one, two, three scalars. -/
def exV : Nat → Type
  | 0 => Byte
  | 1 => Byte × Byte
  | _ + 2 => Byte × Byte × Byte

/-- The default constructors of the example history. -/
def exCtor : (I : Nat) → exV I
  | 0 => (0 : Byte)
  | 1 => ((0 : Byte), (0 : Byte))
  | _ + 2 => ((0 : Byte), (0 : Byte), (0 : Byte))

/-- The overloads of `ssLoadImpl` for the shapes of the example history. -/
def exHistLoad (E : Env) : (I : Nat) → BufferReader → exV I → Res (exV I)
  | 0 => exLoadByte E
  | 1 => ssLoadImpl E (Strategy.tuple (exFields2 E))
  | _ + 2 => ssLoadImpl E (Strategy.tuple (exFields3 E))

/-- The members `ssConvertFrom` of the example history: `V1` takes the byte of
`V0` and sets its second byte to `1`; `V2` takes both bytes of `V1` and leaves
its own third byte as it is. -/
def exConvert : (I : Nat) → exV (I + 1) → exV I → exV (I + 1)
  | 0, _, a => (a, (1 : Byte))
  | 1, self, src => (src.1, src.2, self.2.2)
  | _ + 2, self, _ => self

/-- A class with the version history `V0 → V1 → V2`, `V2` current. -/
def exHist (E : Env) : TypeDesc :=
  { has_ssVersions := true
    is_class := true
    V := exV
    version := 2
    ctor := exCtor
    saveImpl := ssSaveImpl E (Strategy.tuple (exFields3 E))
    loadImpl := exHistLoad E
    ssConvertFrom := exConvert }

/-- An unprotected encoding carrying the version tag `3`. -/
def exNewerPlain : Buffer := [3, 9]

/-- A protected frame, checksum and all, whose payload carries the version tag `3`. -/
def exNewerFrame : Buffer :=
  [6, 0, 0, 0, 0, 0, 0, 0, 12, 0, 0, 0, 83, 83, 0, 0, 0, 0, 0, 0, 0, 0, 3, 0, 0, 0, 0, 9]

/-- The unprotected encoding of an example pair cut off after its first field. -/
def exTruncPair : Buffer := [0, 1]

/-- The cursor `BufferReader(buffer, {}, 10)` over a buffer of three bytes. -/
def exRegionBeyond : BufferReader :=
  { m_buffer := [1, 2, 3], m_offset := 0, m_offsetStart := 0, m_offsetEnd := some 10 }

/-- The cursor `BufferReader(buffer, 5)` over a buffer of three bytes. -/
def exStartBeyond : BufferReader :=
  { m_buffer := [1, 2, 3], m_offset := 0, m_offsetStart := 5, m_offsetEnd := none }

/-- The cursor `BufferReader(buffer, 1, 2)` over a buffer of three bytes. -/
def exRegionInside : BufferReader :=
  { m_buffer := [1, 2, 3], m_offset := 0, m_offsetStart := 1, m_offsetEnd := some 3 }

/-- An unprotected encoding of the example class with the version byte `4`. -/
def exBadTagPlain : Buffer := [4, 9]

/-- A protected frame, checksum and all, whose payload starts with the version byte `4`. -/
def exBadTagFrame : Buffer :=
  [6, 0, 0, 0, 0, 0, 0, 0, 13, 0, 0, 0, 83, 83, 0, 0, 0, 0, 0, 0, 0, 0, 4, 0, 0, 0, 0, 9]

/-- A frame header declaring seven payload bytes, with the right magic and zero
flags, followed by six bytes only. -/
def exShort : Buffer :=
  [7, 0, 0, 0, 0, 0, 0, 0, 7, 0, 0, 0, 83, 83, 0, 0, 0, 0, 0, 0, 0, 0, 0, 0, 0, 0, 0, 7]

/-- The protected frames of the example class values `7` and `9`, one behind the other. -/
def exTwoFrames : Buffer :=
  ssSave exEnv (exClass exEnv) (7 : Byte) true ++ ssSave exEnv (exClass exEnv) (9 : Byte) true

/-- A class whose version history holds the current shape only. -/
def exHistOne (E : Env) : TypeDesc :=
  { has_ssVersions := true
    is_class := true
    V := fun _ => Byte
    version := 0
    ctor := fun _ => (0 : Byte)
    saveImpl := fun v => [v]
    loadImpl := fun _ => exLoadByte E
    ssConvertFrom := fun _ self _ => self }

/-! ## Arithmetic of `size_t` and of little-endian integers -/

theorem Env.sizeMod_pos (E : Env) : 0 < E.sizeMod := by
  unfold Env.sizeMod
  exact Nat.pow_pos (by decide)

theorem Env.subSize_of_le (E : Env) {a b : Nat} (hba : b ≤ a) (ha : a < E.sizeMod) :
    E.subSize a b = a - b := by
  unfold Env.subSize
  have hb : b < E.sizeMod := lt_of_le_of_lt hba ha
  rw [Nat.mod_eq_of_lt ha, Nat.mod_eq_of_lt hb]
  have h1 : a + (E.sizeMod - b) = (a - b) + E.sizeMod := by omega
  rw [h1, Nat.add_mod_right]
  exact Nat.mod_eq_of_lt (by omega)

theorem Env.addSize_of_lt (E : Env) {a b : Nat} (h : a + b < E.sizeMod) :
    E.addSize a b = a + b := by
  unfold Env.addSize
  exact Nat.mod_eq_of_lt h

theorem Env.toSize_of_lt (E : Env) {a : Nat} (h : a < E.sizeMod) : E.toSize a = a := by
  unfold Env.toSize
  exact Nat.mod_eq_of_lt h

theorem toInt64_of_lt {x : Nat} (h : x < 2 ^ 63) : toInt64 x = (x : Int) := by
  unfold toInt64
  have h1 : x % 2 ^ 64 = x := Nat.mod_eq_of_lt (by omega)
  rw [h1, if_pos h]

theorem length_toLE (width x : Nat) : (toLE width x).length = width := by
  induction width generalizing x with
  | zero => rfl
  | succ k ih => simp [toLE, ih]

theorem fromLE_toLE (width x : Nat) : fromLE (toLE width x) = x % 256 ^ width := by
  induction width generalizing x with
  | zero => simp [toLE, fromLE, Nat.mod_one]
  | succ k ih =>
    simp only [toLE, fromLE, ih]
    rw [pow_succ, Nat.mul_comm (256 ^ k) 256, Nat.mod_mul]

theorem fromLE_toLE_of_lt {width x : Nat} (h : x < 256 ^ width) :
    fromLE (toLE width x) = x := by
  rw [fromLE_toLE, Nat.mod_eq_of_lt h]

theorem fromLE_lt (bs : Buffer) : fromLE bs < 256 ^ bs.length := by
  induction bs with
  | nil => simp [fromLE]
  | cons b bs ih =>
    simp only [fromLE, List.length_cons, pow_succ]
    have := b.isLt
    omega

/-! ## Cursor operations on a well-formed cursor -/

namespace BufferReader

theorem size_of_WF {E : Env} {r : BufferReader} (h : r.WF E) :
    r.size E = r.offsetEnd - r.m_offsetStart := by
  unfold size offsetStart
  exact E.subSize_of_le h.start_le (lt_of_le_of_lt h.end_le h.fits.1)

theorem rest_of_WF {E : Env} {r : BufferReader} (h : r.WF E) :
    r.rest E = r.offsetEnd - r.m_offsetStart - r.m_offset := by
  unfold rest position
  rw [size_of_WF h]
  have h1 := h.end_le
  have h2 := h.fits.1
  exact E.subSize_of_le h.pos_le (by omega)

/-- The cursor after `sz` more bytes have been consumed. -/
theorem advance_of_le {E : Env} {r : BufferReader} (h : r.WF E) {sz : Nat}
    (hsz : sz ≤ r.rest E) :
    r.advance E (toInt64 sz) = (none, r.skip sz) := by
  rw [rest_of_WF h] at hsz
  have h1 := h.end_le
  have h2 := h.fits.1
  have h3 := h.fits.2
  have h4 := h.pos_le
  have hs : sz < 2 ^ 63 := by omega
  have ho : r.m_offset < 2 ^ 63 := by omega
  unfold advance
  rw [toInt64_of_lt hs, toInt64_of_lt ho]
  have hnn : (0 : Int) ≤ (r.m_offset : Int) + (sz : Int) := by omega
  rw [if_pos hnn]
  have hcast : ((r.m_offset : Int) + (sz : Int)) = ((r.m_offset + sz : Nat) : Int) := by
    push_cast
    rfl
  have hmod : (((r.m_offset + sz : Nat) : Int) % ((E.sizeMod : Nat) : Int)).toNat
      = r.m_offset + sz := by
    rw [← Int.natCast_mod, Int.toNat_natCast]
    exact Nat.mod_eq_of_lt (by omega)
  rw [hcast, hmod]
  unfold seek
  rw [size_of_WF h, if_pos (by omega)]
  rfl

theorem WF_advanced {E : Env} {r : BufferReader} (h : r.WF E) {n : Nat}
    (hsz : n ≤ r.rest E) : (r.skip n).WF E := by
  rw [rest_of_WF h] at hsz
  have h4 := h.pos_le
  exact ⟨h.start_le, h.end_le, by show r.m_offset + n ≤ r.offsetEnd - r.m_offsetStart; omega,
    h.fits⟩

theorem readRawInto_of_le {E : Env} {r : BufferReader} (h : r.WF E) {sz : Nat}
    (hsz : sz ≤ r.rest E) :
    r.readRawInto E sz = (Except.ok (r.cdata.take sz), r.skip sz) := by
  unfold readRawInto checkPosition
  rw [if_neg (by omega)]
  simp only [advance_of_le h hsz]

theorem read_of_le {E : Env} {r : BufferReader} (h : r.WF E) {w : Nat}
    (hsz : w ≤ r.rest E) :
    r.read E w
      = (Except.ok (fromLE (r.cdata.take w)), r.skip w) := by
  unfold read
  simp only [readRawInto_of_le h hsz]

theorem WF_sub {E : Env} {r : BufferReader} (h : r.WF E) {sz : Nat}
    (hsz : sz ≤ r.rest E) : (r.sub sz).WF E := by
  rw [rest_of_WF h] at hsz
  have h1 := h.end_le
  have h4 := h.pos_le
  have h5 := h.start_le
  refine ⟨?_, ?_, ?_, h.fits⟩
  · show r.m_offsetStart + r.m_offset ≤ r.m_offsetStart + r.m_offset + sz
    omega
  · show r.m_offsetStart + r.m_offset + sz ≤ r.m_buffer.length
    omega
  · show 0 ≤ _
    omega

theorem readRaw_of_le {E : Env} {r : BufferReader} (h : r.WF E) {n : Nat}
    (hsz : n ≤ r.rest E) :
    r.readRaw E n = (Except.ok (r.sub n), r.skip n) := by
  have hsz0 := hsz
  rw [rest_of_WF h] at hsz
  have h1 := h.end_le
  have h2 := h.fits.1
  have h4 := h.pos_le
  have h5 := h.start_le
  have hsub := WF_sub h hsz0
  have hnew : BufferReader.new E r.m_buffer (some (E.addSize r.m_offsetStart r.m_offset))
      (some n) none = Except.ok (r.sub n) := by
    have ha : E.addSize r.m_offsetStart r.m_offset = r.m_offsetStart + r.m_offset :=
      E.addSize_of_lt (by omega)
    have hb : E.addSize (r.m_offsetStart + r.m_offset) n = r.m_offsetStart + r.m_offset + n :=
      E.addSize_of_lt (by omega)
    have hsize : (r.sub n).size E = n := by
      rw [size_of_WF hsub]
      show r.m_offsetStart + r.m_offset + n - (r.m_offsetStart + r.m_offset) = n
      omega
    unfold BufferReader.new
    simp only [ha, hb, Option.isSome_some, Option.isSome_none, Option.getD_some]
    unfold sub at hsize
    simp [position, hsize, sub]
  unfold readRaw checkPosition
  rw [if_neg (by omega)]
  simp only [hnew, advance_of_le h hsz0]

theorem cdata_skip (r : BufferReader) (k : Nat) : (r.skip k).cdata = r.cdata.drop k := by
  unfold cdata skip
  simp only [List.drop_drop]
  congr 1
  omega

theorem rest_skip {E : Env} {r : BufferReader} (h : r.WF E) {k : Nat} (hk : k ≤ r.rest E) :
    (r.skip k).rest E = r.rest E - k := by
  rw [rest_of_WF (WF_advanced h hk), rest_of_WF h]
  show r.offsetEnd - r.m_offsetStart - (r.m_offset + k) = _
  omega

theorem skip_skip (r : BufferReader) (a b : Nat) : (r.skip a).skip b = r.skip (a + b) := by
  unfold skip
  simp [Nat.add_assoc]

theorem rest_le_length {E : Env} {r : BufferReader} (h : r.WF E) :
    r.rest E ≤ r.cdata.length := by
  rw [rest_of_WF h]
  unfold cdata
  rw [List.length_drop]
  have h1 := h.end_le
  have h4 := h.pos_le
  have h5 := h.start_le
  omega

theorem bufferMapped_sub {E : Env} {r : BufferReader} (h : r.WF E) {n : Nat}
    (hsz : n ≤ r.rest E) : (r.sub n).bufferMapped E = r.cdata.take n := by
  unfold bufferMapped
  rw [size_of_WF (WF_sub h hsz)]
  unfold cdataSrc cdata sub offsetEnd
  simp

theorem bufferRest_sub {E : Env} {r : BufferReader} (h : r.WF E) {sz : Nat}
    (hsz : sz ≤ r.rest E) : (r.sub sz).bufferRest E = r.cdata.take sz := by
  unfold bufferRest
  rw [rest_of_WF (WF_sub h hsz)]
  unfold cdata sub offsetEnd
  simp

theorem rest_sub {E : Env} {r : BufferReader} (h : r.WF E) {sz : Nat}
    (hsz : sz ≤ r.rest E) : (r.sub sz).rest E = sz := by
  rw [rest_of_WF (WF_sub h hsz)]
  unfold sub offsetEnd
  simp

theorem cdata_sub (r : BufferReader) (sz : Nat) : (r.sub sz).cdata = r.cdata := by
  unfold cdata sub
  simp

end BufferReader

/-! ## Parsing the frame header -/

theorem ssLoad_header {E : Env} (D : TypeDesc) {r : BufferReader} (h : r.WF E)
    (hlen : E.headerLen ≤ r.rest E) (obj : D.T) :
    ssLoad E D r obj true =
      if r.hdrMagic E ≠ E.ssMagic ∨ r.hdrFlags E ≠ 0 then
        { err := some Err.integrity, buf := r.skip E.headerLen, obj := obj }
      else if r.hdrSize > E.sizeMax then
        { err := some Err.tooLarge, buf := r.skip E.headerLen, obj := obj }
      else
        match (r.skip E.headerLen).readRaw E (E.toSize r.hdrSize) with
        | (Except.error e, b) => { err := some e, buf := b, obj := obj }
        | (Except.ok groupData, b5) =>
          if r.hdrHash ≠ groupData.hash E then
            { err := some Err.integrity, buf := b5, obj := obj }
          else ssLoadPayload E D groupData b5 obj := by
  unfold Env.headerLen at hlen
  have hm : E.ssMagic.length < E.sizeMod := by
    have h1 := BufferReader.rest_le_length h
    have h2 : r.cdata.length ≤ r.m_buffer.length := by
      unfold BufferReader.cdata
      rw [List.length_drop]
      omega
    have h3 := h.fits.1
    omega
  have e1 := BufferReader.read_of_le h (w := 8) (by omega)
  have w1 := BufferReader.WF_advanced h (n := 8) (by omega)
  have r1 := BufferReader.rest_skip h (k := 8) (by omega)
  have e2 := BufferReader.read_of_le w1 (w := 4) (by omega)
  have w2 := BufferReader.WF_advanced w1 (n := 4) (by omega)
  have r2 := BufferReader.rest_skip w1 (k := 4) (by omega)
  have e3 := BufferReader.readRaw_of_le w2 (n := E.ssMagic.length) (by omega)
  have w3 := BufferReader.WF_advanced w2 (n := E.ssMagic.length) (by omega)
  have r3 := BufferReader.rest_skip w2 (k := E.ssMagic.length) (by omega)
  have e4 := BufferReader.read_of_le w3 (w := 8) (by omega)
  have m3 := BufferReader.bufferMapped_sub w2 (n := E.ssMagic.length) (by omega)
  unfold ssLoad
  simp only [if_true, e1, e2, E.toSize_of_lt hm, e3, e4, m3]
  simp only [BufferReader.skip_skip, BufferReader.cdata_skip, List.drop_drop,
    BufferReader.hdrMagic, BufferReader.hdrFlags, BufferReader.hdrSize, BufferReader.hdrHash,
    Env.headerLen, ssLoadPayload]

theorem take_append_len {α : Type} {n : Nat} (a b : List α) (h : a.length = n) :
    (a ++ b).take n = a := by
  subst h
  simp

theorem drop_append_len {α : Type} {n : Nat} (a b : List α) (h : a.length = n) :
    (a ++ b).drop n = b := by
  subst h
  simp

theorem length_frameBytes (a b : Nat) (mg : Buffer) (c : Nat) (payload : Buffer) :
    (frameBytes a b mg c payload).length = 8 + 4 + mg.length + 8 + payload.length := by
  simp [frameBytes, length_toLE]
  omega

/-- The header fields of a cursor standing at the start of a frame. -/
theorem hdr_of_frameBytes {E : Env} {r : BufferReader} {a b c : Nat} {mg payload tail : Buffer}
    (hc : r.cdata = frameBytes a b mg c payload ++ tail) (hmg : mg.length = E.ssMagic.length) :
    r.hdrSize = a % 256 ^ 8 ∧ r.hdrHash = b % 256 ^ 4 ∧ r.hdrMagic E = mg ∧
      r.hdrFlags E = c % 256 ^ 8 ∧ r.cdata.drop E.headerLen = payload ++ tail := by
  have e0 : r.cdata = toLE 8 a ++ (toLE 4 b ++ (mg ++ (toLE 8 c ++ (payload ++ tail)))) := by
    rw [hc, frameBytes]
    simp
  have d8 : r.cdata.drop 8 = toLE 4 b ++ (mg ++ (toLE 8 c ++ (payload ++ tail))) := by
    rw [e0]
    exact drop_append_len _ _ (length_toLE 8 a)
  have d12 : r.cdata.drop 12 = mg ++ (toLE 8 c ++ (payload ++ tail)) := by
    have : r.cdata.drop 12 = (r.cdata.drop 8).drop 4 := by simp [List.drop_drop]
    rw [this, d8]
    exact drop_append_len _ _ (length_toLE 4 b)
  have d12m : r.cdata.drop (12 + E.ssMagic.length) = toLE 8 c ++ (payload ++ tail) := by
    have : r.cdata.drop (12 + E.ssMagic.length) = (r.cdata.drop 12).drop E.ssMagic.length := by
      simp [List.drop_drop, Nat.add_comm]
    rw [this, d12]
    exact drop_append_len _ _ hmg
  refine ⟨?_, ?_, ?_, ?_, ?_⟩
  · unfold BufferReader.hdrSize
    rw [e0, take_append_len _ _ (length_toLE 8 a), fromLE_toLE]
  · unfold BufferReader.hdrHash
    rw [d8, take_append_len _ _ (length_toLE 4 b), fromLE_toLE]
  · unfold BufferReader.hdrMagic
    rw [d12, take_append_len _ _ hmg]
  · unfold BufferReader.hdrFlags
    rw [d12m, take_append_len _ _ (length_toLE 8 c), fromLE_toLE]
  · have : r.cdata.drop E.headerLen = (r.cdata.drop (12 + E.ssMagic.length)).drop 8 := by
      simp [List.drop_drop, Env.headerLen]
    rw [this, d12m]
    exact drop_append_len _ _ (length_toLE 8 c)

/-- Protected `ssLoad` at the start of a frame with the right magic, zero flags
and a payload that is present: the checksum test, then the payload is decoded
from its own sub-region. -/
theorem ssLoad_frame {E : Env} (D : TypeDesc) {r : BufferReader} (h : r.WF E)
    {b : Nat} {payload tail : Buffer} (obj : D.T)
    (hc : r.cdata = frameBytes payload.length b E.ssMagic 0 payload ++ tail)
    (hlen : E.headerLen + payload.length ≤ r.rest E) (hb : b < 2 ^ 32) :
    ssLoad E D r obj true =
      if b ≠ E.hash payload then
        { err := some Err.integrity, buf := r.skip (E.headerLen + payload.length), obj := obj }
      else
        ssLoadPayload E D ((r.skip E.headerLen).sub payload.length)
          (r.skip (E.headerLen + payload.length)) obj := by
  obtain ⟨hs, hh, hm, hf, hd⟩ := hdr_of_frameBytes hc rfl
  have h1 := BufferReader.rest_le_length h
  have h2 : r.cdata.length ≤ r.m_buffer.length := by
    unfold BufferReader.cdata
    rw [List.length_drop]
    omega
  have h3 := h.fits.1
  have h4 := h.fits.2
  have hp : payload.length < 2 ^ 63 := by omega
  have hp2 : payload.length < E.sizeMod := by omega
  have hs1 : payload.length % 256 ^ 8 = payload.length :=
    Nat.mod_eq_of_lt (lt_trans hp (by norm_num))
  have hh1 : b % 256 ^ 4 = b := Nat.mod_eq_of_lt (lt_of_lt_of_le hb (by norm_num))
  rw [hs1] at hs
  rw [hh1] at hh
  rw [Nat.zero_mod] at hf
  have w := BufferReader.WF_advanced h (n := E.headerLen) (by omega)
  have rs := BufferReader.rest_skip h (k := E.headerLen) (by omega)
  have e5 := BufferReader.readRaw_of_le w (n := payload.length) (by omega)
  have m5 := BufferReader.bufferMapped_sub w (n := payload.length) (by omega)
  rw [BufferReader.cdata_skip, hd, take_append_len _ _ rfl] at m5
  rw [ssLoad_header D h (by omega) obj, hm, hf, hs, hh]
  have hsm : ¬ payload.length > E.sizeMax := by
    unfold Env.sizeMax
    omega
  simp only [ne_eq, not_true_eq_false, or_self, if_false, hsm, E.toSize_of_lt hp2, e5,
    BufferReader.hash, m5, BufferReader.skip_skip]

/-! ## Reading what was written -/

theorem BufferReader.length_bufferRest {E : Env} {r : BufferReader} (h : r.WF E) :
    (r.bufferRest E).length = r.rest E := by
  unfold BufferReader.bufferRest
  rw [List.length_take]
  exact Nat.min_eq_left (BufferReader.rest_le_length h)

theorem BufferReader.bufferRest_skip {E : Env} {r : BufferReader} (h : r.WF E) {k : Nat}
    (hk : k ≤ r.rest E) : (r.skip k).bufferRest E = (r.bufferRest E).drop k := by
  unfold BufferReader.bufferRest
  rw [BufferReader.rest_skip h hk, BufferReader.cdata_skip, List.drop_take]

theorem BufferReader.take_cdata {E : Env} {r : BufferReader} {k : Nat}
    (hk : k ≤ r.rest E) : r.cdata.take k = (r.bufferRest E).take k := by
  unfold BufferReader.bufferRest
  rw [List.take_take, Nat.min_eq_left hk]

/-- Reading a fixed-width integer that stands first among the unread bytes. -/
theorem BufferReader.read_toLE {E : Env} {r : BufferReader} (h : r.WF E) {width x : Nat}
    {more : Buffer} (hb : r.bufferRest E = toLE width x ++ more) :
    r.read E width = (Except.ok (x % 256 ^ width), r.skip width) ∧ (r.skip width).WF E ∧
      (r.skip width).bufferRest E = more := by
  have hl := BufferReader.length_bufferRest h
  rw [hb, List.length_append, length_toLE] at hl
  have hk : width ≤ r.rest E := by omega
  refine ⟨?_, BufferReader.WF_advanced h hk, ?_⟩
  · rw [BufferReader.read_of_le h hk, BufferReader.take_cdata hk, hb,
      take_append_len _ _ (length_toLE width x), fromLE_toLE]
  · rw [BufferReader.bufferRest_skip h hk, hb]
    exact drop_append_len _ _ (length_toLE width x)

theorem versionTag_plain {D : TypeDesc} (hv : D.has_ssVersions = false) :
    versionTag D = if D.is_class then toLE 1 0 else [] := by
  unfold versionTag ssWriteVersion ssVersion
  rw [hv]
  cases D.is_class <;> simp [Buffer.write]

/-- The part of `ssLoad` common to both modes, for a type without version
history: the version tag is read back and `ssLoadImpl` is reached with the
bytes of `ssSaveImpl(v)` unread. -/
theorem readVersion_plain {E : Env} {D : TypeDesc} (hv : D.has_ssVersions = false)
    {r : BufferReader} (h : r.WF E) {more : Buffer}
    (hb : r.bufferRest E = versionTag D ++ more) :
    ∃ r1 ver, ssReadVersion E D r = (Except.ok ver, r1) ∧ r1.WF E ∧ r1.bufferRest E = more ∧
      ∀ (b : BufferReader) (obj : D.T),
        ssLoadAndConvert D b obj ver = D.loadImpl D.version b obj := by
  rw [versionTag_plain hv] at hb
  cases hc : D.is_class with
  | false =>
    rw [hc] at hb
    refine ⟨r, none, ?_, h, by simpa using hb, ?_⟩
    · unfold ssReadVersion
      simp [hv, hc]
    · intro b obj
      unfold ssLoadAndConvert
      simp [hv, hc]
  | true =>
    rw [hc] at hb
    simp only [if_true] at hb
    obtain ⟨e1, w1, b1⟩ := BufferReader.read_toLE h hb
    refine ⟨r.skip 1, some 0, ?_, w1, b1, ?_⟩
    · unfold ssReadVersion
      simp [hv, hc, e1]
    · intro b obj
      unfold ssLoadAndConvert
      simp [hv, hc]

theorem ssLoadPayload_plain {E : Env} {D : TypeDesc} (hv : D.has_ssVersions = false)
    (hrt : RoundTrips E D) (v : D.T) {g : BufferReader} (hg : g.WF E)
    (hb : g.bufferRest E = payloadBytes D v) (b5 : BufferReader) (obj : D.T) :
    ssLoadPayload E D g b5 obj = { err := none, buf := b5, obj := v } := by
  obtain ⟨g1, ver, e1, w1, b1, hconv⟩ := readVersion_plain hv hg hb
  obtain ⟨e2, w2, b2⟩ := BufferReader.read_toLE w1 b1
  obtain ⟨h1, h2⟩ := hrt v (g1.skip 4) (D.ctor D.version) w2 b2
  unfold ssLoadPayload
  simp only [e1, e2, hconv, h1, h2]

/-! ## The encoder -/

theorem ssSave_protected (E : Env) (D : TypeDesc) (v : D.T) :
    ssSave E D v true
      = frameBytes (payloadBytes D v).length (E.hash (payloadBytes D v)) E.ssMagic 0
          (payloadBytes D v) := by
  simp [ssSave, frameBytes, payloadBytes, versionTag, Buffer.write, Buffer.append]

theorem ssSave_unprotected (E : Env) (D : TypeDesc) (v : D.T) :
    ssSave E D v false = versionTag D ++ D.saveImpl v := by
  simp [ssSave, versionTag, Buffer.append]

theorem length_ssSave_protected (E : Env) (D : TypeDesc) (v : D.T) :
    (ssSave E D v true).length = E.headerLen + (payloadBytes D v).length := by
  rw [ssSave_protected, length_frameBytes]
  rfl

/-- The constructor call `BufferReader(buffer)` always completes. -/
theorem BufferReader.new_over (E : Env) (buffer : Buffer) :
    BufferReader.new E buffer none none none = Except.ok (BufferReader.over buffer) := by
  simp [BufferReader.new, BufferReader.position, BufferReader.over]

theorem BufferReader.WF_over {E : Env} {buffer : Buffer} (h : E.Fits buffer.length) :
    (BufferReader.over buffer).WF E :=
  ⟨Nat.zero_le _, Nat.le_refl _, Nat.zero_le _, h⟩

theorem BufferReader.cdata_over (buffer : Buffer) : (BufferReader.over buffer).cdata = buffer := by
  simp [BufferReader.cdata, BufferReader.over]

theorem BufferReader.rest_over {E : Env} {buffer : Buffer} (h : E.Fits buffer.length) :
    (BufferReader.over buffer).rest E = buffer.length := by
  rw [BufferReader.rest_of_WF (BufferReader.WF_over h)]
  simp [BufferReader.over, BufferReader.offsetEnd]

theorem BufferReader.bufferRest_over {E : Env} {buffer : Buffer} (h : E.Fits buffer.length) :
    (BufferReader.over buffer).bufferRest E = buffer := by
  unfold BufferReader.bufferRest
  rw [BufferReader.rest_over h, BufferReader.cdata_over, List.take_length]

/-! ## Round trips -/

/-- Protected decoding of a frame found at a cursor, for a type without version
history whose pair round-trips: the value is returned and the cursor stands
behind the frame. -/
theorem ssLoad_ssSave_at {E : Env} {D : TypeDesc} (hv : D.has_ssVersions = false)
    (hrt : RoundTrips E D) (v : D.T) {r : BufferReader} (h : r.WF E) {tail : Buffer}
    (hc : r.cdata = ssSave E D v true ++ tail)
    (hlen : (ssSave E D v true).length ≤ r.rest E) (obj : D.T) :
    ssLoad E D r obj true
      = { err := none, buf := r.skip (ssSave E D v true).length, obj := v } := by
  rw [ssSave_protected] at hc
  rw [length_ssSave_protected] at hlen ⊢
  have hb : E.hash (payloadBytes D v) < 2 ^ 32 := Nat.mod_lt _ (by norm_num)
  rw [ssLoad_frame D h obj hc hlen hb, if_neg (by simp)]
  have w := BufferReader.WF_advanced h (n := E.headerLen) (by omega)
  have rs := BufferReader.rest_skip h (k := E.headerLen) (by omega)
  have hsz : (payloadBytes D v).length ≤ (r.skip E.headerLen).rest E := by omega
  have hg := BufferReader.WF_sub w hsz
  have hbr := BufferReader.bufferRest_sub w hsz
  obtain ⟨_, _, _, _, hd⟩ := hdr_of_frameBytes hc rfl
  rw [BufferReader.cdata_skip, hd, take_append_len _ _ rfl] at hbr
  exact ssLoadPayload_plain hv hrt v hg hbr _ obj

/-- Unprotected decoding at a cursor whose unread bytes are the unprotected
encoding of `v`. -/
theorem ssLoad_ssSave_unprotected_at {E : Env} {D : TypeDesc} (hv : D.has_ssVersions = false)
    (hrt : RoundTrips E D) (v : D.T) {r : BufferReader} (h : r.WF E)
    (hb : r.bufferRest E = ssSave E D v false) (obj : D.T) :
    (ssLoad E D r obj false).err = none ∧ (ssLoad E D r obj false).obj = v := by
  rw [ssSave_unprotected] at hb
  obtain ⟨r1, ver, e1, w1, b1, hconv⟩ := readVersion_plain hv h hb
  have := hrt v r1 obj w1 b1
  unfold ssLoad
  simpa [e1, hconv] using this

theorem exLoadByte_roundTrips (E : Env) (v : Byte) (r : BufferReader) (obj : Byte)
    (h : r.WF E) (hb : r.bufferRest E = [v]) :
    (exLoadByte E r obj).err = none ∧ (exLoadByte E r obj).obj = v := by
  have hb2 : r.bufferRest E = toLE 1 v.val ++ [] := by
    rw [hb]
    simp only [toLE, List.append_nil, List.cons.injEq, and_true]
    exact Fin.ext (Nat.mod_eq_of_lt v.isLt).symm
  obtain ⟨e1, _, _⟩ := BufferReader.read_toLE h hb2
  unfold exLoadByte
  simp only [e1]
  refine ⟨trivial, ?_⟩
  apply Fin.ext
  show v.val % 256 ^ 1 % 256 = v.val
  have := v.isLt
  omega

theorem exClass_roundTrips (E : Env) : RoundTrips E (exClass E) :=
  fun v r obj h hb => exLoadByte_roundTrips E v r obj h hb

theorem exScalar_roundTrips (E : Env) : RoundTrips E (exScalar E) :=
  fun v r obj h hb => exLoadByte_roundTrips E v r obj h hb

theorem frameBytes_split (a b : Nat) (mg : Buffer) (c : Nat) (payload : Buffer) :
    frameBytes a b mg c payload = frameBytes a b mg c [] ++ payload := by
  simp [frameBytes]

theorem take_header_ssSave (E : Env) (D : TypeDesc) (v : D.T) :
    (ssSave E D v true).take E.headerLen
      = frameBytes (payloadBytes D v).length (E.hash (payloadBytes D v)) E.ssMagic 0 [] := by
  rw [ssSave_protected, frameBytes_split]
  apply take_append_len
  rw [length_frameBytes]
  rfl

theorem TypeDesc.recast_rfl (D : TypeDesc) {I : Nat} (h : I = I) (x : D.V I) :
    D.recast h x = x := rfl

/-- Moving the last conversion of a chain along an equality of indices. -/
theorem convert_transport (D : TypeDesc) (obj : D.T) {a b : Nat} (e : a = b)
    (ha : a + 1 = D.version) (hb : b + 1 = D.version) (x : D.V a) :
    D.recast ha (D.ssConvertFrom a (D.recast ha.symm obj) x)
      = D.recast hb (D.ssConvertFrom b (D.recast hb.symm obj) (D.recast e x)) := by
  subst e
  rfl

theorem convert_ctor_transport (D : TypeDesc) {a b : Nat} (e : a = b) (e1 : a + 1 = b + 1)
    (x : D.V a) :
    D.recast e1 (D.ssConvertFrom a (D.ctor (a + 1)) x)
      = D.ssConvertFrom b (D.ctor (b + 1)) (D.recast e x) := by
  subst e
  rfl

/-- A chain of `k + 1` conversions is its first conversion followed by a chain of `k`. -/
theorem migrate_front (D : TypeDesc) (k I : Nat) (v : D.V I) (e : I + 1 + k = I + (k + 1)) :
    migrate D I (k + 1) v
      = D.recast e (migrate D (I + 1) k (D.ssConvertFrom I (D.ctor (I + 1)) v)) := by
  induction k with
  | zero => rfl
  | succ k ih =>
    have e0 : I + 1 + k = I + (k + 1) := by omega
    have step : migrate D I (k + 1 + 1) v
        = D.ssConvertFrom (I + (k + 1)) (D.ctor (I + (k + 1) + 1)) (migrate D I (k + 1) v) := rfl
    rw [step, ih e0]
    exact (convert_ctor_transport D e0 e _).symm

/-- The conversion loop `ssLoadAndConvertIter2`: the chain of the intermediate
shapes, then `ssConvertFrom` of `T` on the destination object. -/
theorem ssLoadAndConvertIter2_eq (D : TypeDesc) (obj : D.T) (k : Nat) :
    ∀ (I : Nat) (srcObj : D.V I) (h : I + k + 1 = D.version),
      ssLoadAndConvertIter2 D I obj srcObj
        = (none, D.recast h
            (D.ssConvertFrom (I + k) (D.recast h.symm obj) (migrate D I k srcObj))) := by
  induction k with
  | zero =>
    intro I srcObj h
    rw [ssLoadAndConvertIter2, dif_pos h]
    rfl
  | succ k ih =>
    intro I srcObj h
    have hne : ¬ I + 1 = D.version := by omega
    have hlt : I + 1 < D.version := by omega
    have h1 : I + 1 + k + 1 = D.version := by omega
    have e0 : I + 1 + k = I + (k + 1) := by omega
    rw [ssLoadAndConvertIter2, dif_neg hne, if_pos hlt]
    simp only []
    rw [ih (I + 1) _ h1, migrate_front D k I srcObj e0]
    exact congrArg (fun x => (none, x)) (convert_transport D obj e0 h1 h _)

/-- The instantiations below the serialized version only forward. -/
theorem ssLoadAndConvertIter_forward (D : TypeDesc) (buffer : BufferReader) (obj : D.T)
    (s : Nat) (hs : s ≤ D.version) (d : Nat) :
    ∀ I : Nat, I + d = s →
      ssLoadAndConvertIter D I buffer obj s = ssLoadAndConvertIter D s buffer obj s := by
  induction d with
  | zero =>
    intro I h
    have : I = s := by omega
    rw [this]
  | succ d ih =>
    intro I h
    have h1 : I ≤ D.version := by omega
    have h2 : I < s := by omega
    rw [ssLoadAndConvertIter, if_pos h1, if_pos h2]
    exact ih (I + 1) (by omega)

/-- A serialized version above the current one runs into the assertion of the
overload for `I > version`. -/
theorem ssLoadAndConvertIter_newer (D : TypeDesc) (buffer : BufferReader) (obj : D.T)
    (s : Nat) (hs : D.version < s) (d : Nat) :
    ∀ I : Nat, I + d = D.version + 1 →
      ssLoadAndConvertIter D I buffer obj s
        = { err := some Err.assertion, buf := buffer, obj := obj } := by
  induction d with
  | zero =>
    intro I h
    have h1 : ¬ I ≤ D.version := by omega
    rw [ssLoadAndConvertIter, if_neg h1]
  | succ d ih =>
    intro I h
    have h1 : I ≤ D.version := by omega
    have h2 : I < s := by omega
    rw [ssLoadAndConvertIter, if_pos h1, if_pos h2]
    exact ih (I + 1) (by omega)

theorem ssLoadAndConvertIter_current (D : TypeDesc) (buffer : BufferReader) (obj : D.T) :
    ssLoadAndConvertIter D 0 buffer obj D.version = D.loadImpl D.version buffer obj := by
  rw [ssLoadAndConvertIter_forward D buffer obj D.version (Nat.le_refl _) D.version 0 (by omega)]
  rw [ssLoadAndConvertIter, if_pos (Nat.le_refl _), if_neg (Nat.lt_irrefl _),
    if_pos ⟨rfl, rfl⟩]

theorem ssLoadAndConvertIter_older (D : TypeDesc) (buffer : BufferReader) (obj : D.T)
    (i k : Nat) (h : i + k + 1 = D.version)
    (hload : (D.loadImpl i buffer (D.ctor i)).err = none) :
    ssLoadAndConvertIter D 0 buffer obj i
      = { err := none
          buf := (D.loadImpl i buffer (D.ctor i)).buf
          obj := D.recast h (D.ssConvertFrom (i + k) (D.recast h.symm obj)
            (migrate D i k (D.loadImpl i buffer (D.ctor i)).obj)) } := by
  have hi : i ≤ D.version := by omega
  have hne : ¬ i = D.neededVer := by
    unfold TypeDesc.neededVer
    omega
  rw [ssLoadAndConvertIter_forward D buffer obj i hi i 0 (by omega)]
  rw [ssLoadAndConvertIter, if_pos hi, if_neg (Nat.lt_irrefl _), if_neg (fun c => hne c.2),
    if_pos ⟨rfl, hne⟩]
  simp only [hload, ssLoadAndConvertIter2_eq D obj k i _ h]

/-- Decoding with a tag below the current version, whether or not the older
shape decodes: its error is passed on with the destination object untouched,
its value goes through the conversion chain. -/
theorem ssLoadAndConvertIter_older_all (D : TypeDesc) (buffer : BufferReader) (obj : D.T)
    (i k : Nat) (h : i + k + 1 = D.version) :
    ssLoadAndConvertIter D 0 buffer obj i
      = match (D.loadImpl i buffer (D.ctor i)).err with
        | some e =>
          { err := some e, buf := (D.loadImpl i buffer (D.ctor i)).buf, obj := obj }
        | none =>
          { err := none
            buf := (D.loadImpl i buffer (D.ctor i)).buf
            obj := D.recast h (D.ssConvertFrom (i + k) (D.recast h.symm obj)
              (migrate D i k (D.loadImpl i buffer (D.ctor i)).obj)) } := by
  cases hE : (D.loadImpl i buffer (D.ctor i)).err with
  | none => exact ssLoadAndConvertIter_older D buffer obj i k h hE
  | some e =>
    have hi : i ≤ D.version := by omega
    have hne : ¬ i = D.neededVer := by
      unfold TypeDesc.neededVer
      omega
    rw [ssLoadAndConvertIter_forward D buffer obj i hi i 0 (by omega)]
    rw [ssLoadAndConvertIter, if_pos hi, if_neg (Nat.lt_irrefl _), if_neg (fun c => hne c.2),
      if_pos ⟨rfl, hne⟩]
    simp only [hE]

theorem toLE_one_val (t : Byte) : toLE 1 t.val = [t] := by
  simp only [toLE, List.cons.injEq, and_true]
  exact Fin.ext (Nat.mod_eq_of_lt t.isLt)

theorem ssLoadAndConvert_newer (D : TypeDesc) (hv : D.has_ssVersions = true)
    (buffer : BufferReader) (obj : D.T) (s : Nat) (hs : D.version < s) :
    ssLoadAndConvert D buffer obj (some s)
      = { err := some Err.assertion, buf := buffer, obj := obj } := by
  unfold ssLoadAndConvert
  rw [hv]
  exact ssLoadAndConvertIter_newer D buffer obj s hs (D.version + 1) 0 (by omega)

/-- The version tag of a type with history is read back as it stands. -/
theorem ssReadVersion_hist {E : Env} {D : TypeDesc} (hv : D.has_ssVersions = true)
    {r : BufferReader} (h : r.WF E) {t : Byte} {more : Buffer}
    (hb : r.bufferRest E = t :: more) :
    ssReadVersion E D r = (Except.ok (some t.val), r.skip 1) ∧ (r.skip 1).WF E ∧
      (r.skip 1).bufferRest E = more := by
  have hb2 : r.bufferRest E = toLE 1 t.val ++ more := by
    rw [hb, toLE_one_val]
    rfl
  obtain ⟨e1, w1, b1⟩ := BufferReader.read_toLE h hb2
  have hm : t.val % 256 ^ 1 = t.val := Nat.mod_eq_of_lt (by have := t.isLt; omega)
  rw [hm] at e1
  refine ⟨?_, w1, b1⟩
  unfold ssReadVersion
  simp [hv, e1]

/-! ## The field-list strategy -/

theorem ssSaveImplViaTuple_eq {α : Type} (E : Env) (obj : α) (args : List (Field α)) :
    ∀ buffer : Buffer, ssSaveImplViaTuple E obj args buffer
      = buffer ++ (args.map (fun f => ssSave E f.D (f.get obj) false)).flatten := by
  induction args with
  | nil =>
    intro buffer
    simp [ssSaveImplViaTuple]
  | cons f args ih =>
    intro buffer
    simp [ssSaveImplViaTuple, ih, Buffer.append]

/-- The payload cursor protected `ssLoad` carves out of a frame. -/
theorem payload_cursor {E : Env} {r : BufferReader} (h : r.WF E) {a b c : Nat}
    {mg payload tail : Buffer} (hc : r.cdata = frameBytes a b mg c payload ++ tail)
    (hmg : mg.length = E.ssMagic.length) (hlen : E.headerLen + payload.length ≤ r.rest E) :
    ((r.skip E.headerLen).sub payload.length).WF E ∧
      ((r.skip E.headerLen).sub payload.length).bufferRest E = payload := by
  have w := BufferReader.WF_advanced h (n := E.headerLen) (by omega)
  have rs := BufferReader.rest_skip h (k := E.headerLen) (by omega)
  have hsz : payload.length ≤ (r.skip E.headerLen).rest E := by omega
  have hbr := BufferReader.bufferRest_sub w hsz
  obtain ⟨_, _, _, _, hd⟩ := hdr_of_frameBytes hc hmg
  rw [BufferReader.cdata_skip, hd, take_append_len _ _ rfl] at hbr
  exact ⟨BufferReader.WF_sub w hsz, hbr⟩

theorem ssLoadPayload_newer {E : Env} {D : TypeDesc} (hv : D.has_ssVersions = true)
    {g : BufferReader} (hg : g.WF E) {t : Byte} {more : Buffer}
    (hb : g.bufferRest E = t :: more) (ht : D.version < t.val) (b5 : BufferReader)
    (obj : D.T) :
    (ssLoadPayload E D g b5 obj).err ≠ none ∧ (ssLoadPayload E D g b5 obj).obj = obj ∧
      (4 ≤ more.length → (ssLoadPayload E D g b5 obj).err = some Err.assertion) := by
  obtain ⟨e1, w1, b1⟩ := ssReadVersion_hist hv hg hb
  have hl := BufferReader.length_bufferRest w1
  rw [b1] at hl
  unfold ssLoadPayload
  simp only [e1]
  by_cases h4 : 4 ≤ more.length
  · have e2 := BufferReader.read_of_le w1 (w := 4) (by omega)
    simp [e2, ssLoadAndConvert_newer D hv _ _ t.val ht]
  · have e2 : (g.skip 1).read E 4 = (Except.error Err.bounds, g.skip 1) := by
      unfold BufferReader.read BufferReader.readRawInto BufferReader.checkPosition
      rw [if_pos (by omega)]
    simp [e2, h4]

/-! ## Reads past the end of the region -/

theorem BufferReader.readRawInto_fail (E : Env) (r : BufferReader) (sz : Nat)
    (h : sz > r.rest E) : r.readRawInto E sz = (Except.error Err.bounds, r) := by
  unfold BufferReader.readRawInto BufferReader.checkPosition
  rw [if_pos h]

theorem BufferReader.readRaw_fail (E : Env) (r : BufferReader) (sz : Nat)
    (h : sz > r.rest E) : r.readRaw E sz = (Except.error Err.bounds, r) := by
  unfold BufferReader.readRaw BufferReader.checkPosition
  rw [if_pos h]

theorem BufferReader.read_fail (E : Env) (r : BufferReader) (sz : Nat)
    (h : sz > r.rest E) : r.read E sz = (Except.error Err.bounds, r) := by
  unfold BufferReader.read
  rw [BufferReader.readRawInto_fail E r sz h]

/-! ## The destination object -/

/-- Protected `ssLoad` either fails and leaves the destination object as it was,
or completes and stores what `ssLoadAndConvert` built from a default
constructed object. -/
theorem ssLoad_protected_obj (E : Env) (D : TypeDesc) (r : BufferReader) (obj : D.T) :
    ((ssLoad E D r obj true).err ≠ none ∧ (ssLoad E D r obj true).obj = obj) ∨
      ((ssLoad E D r obj true).err = none ∧
        ∃ g ver, (ssLoadAndConvert D g (D.ctor D.version) ver).err = none ∧
          (ssLoad E D r obj true).obj = (ssLoadAndConvert D g (D.ctor D.version) ver).obj) := by
  unfold ssLoad
  simp only [if_true]
  repeat' split
  all_goals first
    | exact Or.inl ⟨by simp, rfl⟩
    | skip
  rename_i g2 _ _ _ hnone
  exact Or.inr ⟨rfl, _, _, hnone, rfl⟩

/-- Unprotected `ssLoad` either fails reading the version tag and leaves the
destination object as it was, or decodes in place into that object. -/
theorem ssLoad_unprotected_obj (E : Env) (D : TypeDesc) (r : BufferReader) (obj : D.T) :
    (∃ e b, ssLoad E D r obj false = { err := some e, buf := b, obj := obj }) ∨
      (∃ ver b, ssLoad E D r obj false = ssLoadAndConvert D b obj ver) := by
  unfold ssLoad
  simp only [Bool.false_eq_true, if_false]
  split
  · exact Or.inl ⟨_, _, rfl⟩
  · exact Or.inr ⟨_, _, rfl⟩

/-! ## Repositioning -/

/-- The cursor `seek(pos)` leaves behind: `pos` is taken exactly when it is at
most `size()`, otherwise the assertion fails and nothing changes. -/
theorem BufferReader.seek_spec (E : Env) (r : BufferReader) (pos : Nat) :
    (pos ≤ r.size E ∧ r.seek E pos = (none, { r with m_offset := pos })) ∨
      (¬ pos ≤ r.size E ∧ r.seek E pos = (some Err.assertion, r)) := by
  unfold BufferReader.seek
  by_cases h : pos ≤ r.size E
  · exact Or.inl ⟨h, by rw [if_pos h]⟩
  · exact Or.inr ⟨h, by rw [if_neg h]⟩

theorem BufferReader.size_set_offset (E : Env) (r : BufferReader) (pos : Nat) :
    BufferReader.size E { r with m_offset := pos } = r.size E := rfl

/-- A `seek` that completes leaves the position inside the region, a `seek`
that fails leaves the cursor as it was. -/
theorem BufferReader.seek_inv (E : Env) (r : BufferReader) (pos : Nat) :
    ((r.seek E pos).1 = none ∧ (r.seek E pos).2.position ≤ (r.seek E pos).2.size E ∧
        (r.seek E pos).2.size E = r.size E) ∨
      ((r.seek E pos).1 = some Err.assertion ∧ (r.seek E pos).2 = r) := by
  rcases BufferReader.seek_spec E r pos with ⟨h, e⟩ | ⟨_, e⟩
  · rw [e]
    exact Or.inl ⟨rfl, h, rfl⟩
  · rw [e]
    exact Or.inr ⟨rfl, rfl⟩

/-- An `advance` that completes leaves the position inside the region, an
`advance` that fails leaves the cursor as it was. -/
theorem BufferReader.advance_inv (E : Env) (r : BufferReader) (delta : Int) :
    ((r.advance E delta).1 = none ∧
        (r.advance E delta).2.position ≤ (r.advance E delta).2.size E ∧
        (r.advance E delta).2.size E = r.size E) ∨
      ((r.advance E delta).1 = some Err.assertion ∧ (r.advance E delta).2 = r) := by
  unfold BufferReader.advance
  split
  · exact BufferReader.seek_inv E r _
  · exact Or.inr ⟨rfl, rfl⟩

/-- With a `size_t` of at least 64 bits and a well-formed cursor, `advance(delta)`
for an `int64_t` `delta` completes exactly when `0 <= position + delta <= size`
and then sets the position to `position + delta`. -/
theorem BufferReader.advance_wide (E : Env) (r : BufferReader) (delta : Int) (h : r.WF E)
    (hw : 64 ≤ E.sizeBits) (hlo : -(2 : Int) ^ 63 ≤ delta) (hhi : delta < (2 : Int) ^ 63) :
    (0 ≤ (r.position : Int) + delta ∧ (r.position : Int) + delta ≤ (r.size E : Int) ∧
        r.advance E delta
          = (none, { r with m_offset := ((r.position : Int) + delta).toNat })) ∨
      (¬ (0 ≤ (r.position : Int) + delta ∧ (r.position : Int) + delta ≤ (r.size E : Int)) ∧
        r.advance E delta = (some Err.assertion, r)) := by
  have h1 := h.end_le
  have h3 := h.fits.2
  have h4 := h.pos_le
  have ho : r.m_offset < 2 ^ 63 := by omega
  have hM : (2 : Nat) ^ 64 ≤ E.sizeMod := Nat.pow_le_pow_right (by decide) hw
  unfold BufferReader.advance BufferReader.position
  rw [toInt64_of_lt ho]
  by_cases hnn : 0 ≤ (r.m_offset : Int) + delta
  · rw [if_pos hnn]
    have hlt : (r.m_offset : Int) + delta < (E.sizeMod : Int) := by
      have : ((2 : Nat) ^ 64 : Int) ≤ (E.sizeMod : Int) := by exact_mod_cast hM
      have h63 : ((2 : Nat) ^ 63 : Int) + 2 ^ 63 = ((2 : Nat) ^ 64 : Int) := by norm_num
      have ho2 : (r.m_offset : Int) < ((2 : Nat) ^ 63 : Int) := by exact_mod_cast ho
      have hhi2 : delta < ((2 : Nat) ^ 63 : Int) := by
        have : ((2 : Nat) ^ 63 : Int) = (2 : Int) ^ 63 := by norm_num
        omega
      omega
    rw [Int.emod_eq_of_lt hnn hlt]
    rcases BufferReader.seek_spec E r ((r.m_offset : Int) + delta).toNat with ⟨hs, e⟩ | ⟨hs, e⟩
    · refine Or.inl ⟨hnn, ?_, e⟩
      have := Int.toNat_of_nonneg hnn
      omega
    · refine Or.inr ⟨fun c => hs ?_, e⟩
      have := Int.toNat_of_nonneg hnn
      omega
  · rw [if_neg hnn]
    exact Or.inr ⟨fun c => hnn c.1, rfl⟩

/-- A copying read that completes leaves the position inside the region. -/
theorem BufferReader.readRawInto_inv (E : Env) (r : BufferReader) (sz : Nat) (b : Buffer)
    (r1 : BufferReader) (h : r.readRawInto E sz = (Except.ok b, r1)) :
    r1.position ≤ r1.size E := by
  unfold BufferReader.readRawInto at h
  split at h
  · cases h
  · rcases BufferReader.advance_inv E r (toInt64 sz) with ⟨a1, a2, _⟩ | ⟨a1, _⟩
    · split at h
      · cases h
      · rename_i heq
        cases h
        rw [heq] at a2
        exact a2
    · split at h
      · cases h
      · rename_i heq
        rw [heq] at a1
        cases a1

/-- A slicing read that completes leaves the position inside the region. -/
theorem BufferReader.readRaw_inv (E : Env) (r : BufferReader) (sz : Nat)
    (s r1 : BufferReader) (h : r.readRaw E sz = (Except.ok s, r1)) :
    r1.position ≤ r1.size E := by
  unfold BufferReader.readRaw at h
  split at h
  · cases h
  · split at h
    · cases h
    · rcases BufferReader.advance_inv E r (toInt64 sz) with ⟨a1, a2, _⟩ | ⟨a1, _⟩
      · split at h
        · cases h
        · rename_i heq
          cases h
          rw [heq] at a2
          exact a2
      · split at h
        · cases h
        · rename_i heq
          rw [heq] at a1
          cases a1

/-- A `read` that completes leaves the position inside the region. -/
theorem BufferReader.read_inv (E : Env) (r : BufferReader) (width : Nat) (x : Nat)
    (r1 : BufferReader) (h : r.read E width = (Except.ok x, r1)) :
    r1.position ≤ r1.size E := by
  unfold BufferReader.read at h
  split at h
  · cases h
  · rename_i heq
    cases h
    exact BufferReader.readRawInto_inv E r width _ _ heq

/-! ## The version tag of a plain class -/

/-- Reading one byte that stands first among the unread bytes. -/
theorem BufferReader.read_byte {E : Env} {r : BufferReader} (h : r.WF E) {t : Byte}
    {more : Buffer} (hb : r.bufferRest E = t :: more) :
    r.read E 1 = (Except.ok t.val, r.skip 1) ∧ (r.skip 1).WF E ∧
      (r.skip 1).bufferRest E = more := by
  have hb2 : r.bufferRest E = toLE 1 t.val ++ more := by
    rw [hb, toLE_one_val]
    rfl
  obtain ⟨e1, w1, b1⟩ := BufferReader.read_toLE h hb2
  have hm : t.val % 256 ^ 1 = t.val := Nat.mod_eq_of_lt (by have := t.isLt; omega)
  rw [hm] at e1
  exact ⟨e1, w1, b1⟩

theorem ssReadVersion_class {E : Env} {D : TypeDesc} (hv : D.has_ssVersions = false)
    (hc : D.is_class = true) {r : BufferReader} (h : r.WF E) {t : Byte} {more : Buffer}
    (hb : r.bufferRest E = t :: more) :
    ssReadVersion E D r
      = if t.val = 0 then (Except.ok (some 0), r.skip 1)
        else (Except.error Err.assertion, r.skip 1) := by
  obtain ⟨e1, _, _⟩ := BufferReader.read_byte h hb
  unfold ssReadVersion
  simp only [hv, hc, e1]
  by_cases ht : t.val = 0
  · simp [ht]
  · simp [ht]

theorem ssReadVersion_scalar (E : Env) {D : TypeDesc} (hv : D.has_ssVersions = false)
    (hc : D.is_class = false) (r : BufferReader) :
    ssReadVersion E D r = (Except.ok none, r) := by
  unfold ssReadVersion
  simp [hv, hc]

theorem ssLoadPayload_buf (E : Env) (D : TypeDesc) (g b5 : BufferReader) (obj : D.T) :
    (ssLoadPayload E D g b5 obj).buf = b5 := by
  unfold ssLoadPayload
  split
  · rfl
  · split
    · rfl
    · simp only []
      split <;> rfl

/-! ## What a protected decode consumes -/

theorem BufferReader.hdrSize_lt (r : BufferReader) : r.hdrSize < 2 ^ 64 := by
  unfold BufferReader.hdrSize
  have h1 := fromLE_lt (r.cdata.take 8)
  have h2 : (r.cdata.take 8).length ≤ 8 := by
    rw [List.length_take]
    exact Nat.min_le_left _ _
  have h3 : 256 ^ (r.cdata.take 8).length ≤ 256 ^ 8 := Nat.pow_le_pow_right (by decide) h2
  have h4 : (256 : Nat) ^ 8 = 2 ^ 64 := by norm_num
  omega

/-- A protected `ssLoad` that completes has found a whole header. -/
theorem ssLoad_protected_needs_header {E : Env} (D : TypeDesc) {r : BufferReader}
    (h : r.WF E) (obj : D.T) (hs : (ssLoad E D r obj true).err = none) :
    E.headerLen ≤ r.rest E := by
  by_contra hl
  unfold Env.headerLen at hl
  have hm : E.toSize E.ssMagic.length ≤ E.ssMagic.length := Nat.mod_le _ _
  unfold ssLoad at hs
  simp only [if_true] at hs
  by_cases c1 : 8 ≤ r.rest E
  · have w1 := BufferReader.WF_advanced h c1
    have r1 := BufferReader.rest_skip h c1
    simp only [BufferReader.read_of_le h c1] at hs
    by_cases c2 : 4 ≤ (r.skip 8).rest E
    · have w2 := BufferReader.WF_advanced w1 c2
      have r2 := BufferReader.rest_skip w1 c2
      simp only [BufferReader.read_of_le w1 c2] at hs
      by_cases c3 : E.toSize E.ssMagic.length ≤ ((r.skip 8).skip 4).rest E
      · have w3 := BufferReader.WF_advanced w2 c3
        have r3 := BufferReader.rest_skip w2 c3
        have m3 := BufferReader.bufferMapped_sub w2 c3
        simp only [BufferReader.readRaw_of_le w2 c3] at hs
        by_cases c4 : 8 ≤ (((r.skip 8).skip 4).skip (E.toSize E.ssMagic.length)).rest E
        · simp only [BufferReader.read_of_le w3 c4] at hs
          have hne : (((r.skip 8).skip 4).sub (E.toSize E.ssMagic.length)).bufferMapped E
              ≠ E.ssMagic := by
            intro heq
            have hlen := congrArg List.length heq
            rw [m3, List.length_take] at hlen
            have := Nat.min_le_left (E.toSize E.ssMagic.length) ((r.skip 8).skip 4).cdata.length
            omega
          rw [if_pos (Or.inl hne)] at hs
          simp at hs
        · simp [BufferReader.read_fail E _ 8 (Nat.lt_of_not_le c4)] at hs
      · simp [BufferReader.readRaw_fail E _ _ (Nat.lt_of_not_le c3)] at hs
    · simp [BufferReader.read_fail E _ 4 (Nat.lt_of_not_le c2)] at hs
  · simp [BufferReader.read_fail E r 8 (Nat.lt_of_not_le c1)] at hs

/-- A protected `ssLoad` that completes leaves the cursor behind the header and
the declared number of payload bytes. -/
theorem ssLoad_protected_buf {E : Env} (D : TypeDesc) {r : BufferReader} (h : r.WF E)
    (obj : D.T) (hs : (ssLoad E D r obj true).err = none) :
    (ssLoad E D r obj true).buf = r.skip (E.headerLen + r.hdrSize) := by
  have hl := ssLoad_protected_needs_header D h obj hs
  rw [ssLoad_header D h hl obj] at hs ⊢
  by_cases c1 : r.hdrMagic E ≠ E.ssMagic ∨ r.hdrFlags E ≠ 0
  · rw [if_pos c1] at hs
    simp at hs
  · rw [if_neg c1] at hs ⊢
    by_cases c2 : r.hdrSize > E.sizeMax
    · rw [if_pos c2] at hs
      simp at hs
    · rw [if_neg c2] at hs ⊢
      have hts : E.toSize r.hdrSize = r.hdrSize := by
        apply E.toSize_of_lt
        unfold Env.sizeMax at c2
        have := E.sizeMod_pos
        omega
      rw [hts] at hs ⊢
      have w := BufferReader.WF_advanced h hl
      by_cases c3 : r.hdrSize ≤ (r.skip E.headerLen).rest E
      · simp only [BufferReader.readRaw_of_le w c3] at hs ⊢
        by_cases c4 : r.hdrHash ≠ ((r.skip E.headerLen).sub r.hdrSize).hash E
        · rw [if_pos c4] at hs
          simp at hs
        · rw [if_neg c4, ssLoadPayload_buf, BufferReader.skip_skip]
      · simp [BufferReader.readRaw_fail E _ _ (Nat.lt_of_not_le c3)] at hs

/-- A frame whose declared payload is longer than what is left behind the
header: the too-large error when the size is no `size_t`, otherwise the bounds
error of `readRaw(size)`; the cursor stays behind the header either way. -/
theorem ssLoad_overdeclared {E : Env} (D : TypeDesc) {r : BufferReader} (h : r.WF E)
    (obj : D.T) (hlen : E.headerLen ≤ r.rest E) (hmagic : r.hdrMagic E = E.ssMagic)
    (hflags : r.hdrFlags E = 0) (hsize : r.hdrSize > r.rest E - E.headerLen) :
    ssLoad E D r obj true
      = if r.hdrSize > E.sizeMax then
          { err := some Err.tooLarge, buf := r.skip E.headerLen, obj := obj }
        else { err := some Err.bounds, buf := r.skip E.headerLen, obj := obj } := by
  rw [ssLoad_header D h hlen obj, if_neg (by simp [hmagic, hflags])]
  by_cases c2 : r.hdrSize > E.sizeMax
  · rw [if_pos c2, if_pos c2]
  · rw [if_neg c2, if_neg c2]
    have hts : E.toSize r.hdrSize = r.hdrSize := by
      apply E.toSize_of_lt
      unfold Env.sizeMax at c2
      have := E.sizeMod_pos
      omega
    have rs := BufferReader.rest_skip h hlen
    rw [hts, BufferReader.readRaw_fail E _ _ (by omega)]

/-! ## The claims -/

/-- C1. Protected round trip: for a type without version history whose
`ssSaveImpl` / `ssLoadImpl` pair round-trips and every value `v`, protected
`ssLoad` of the buffer `ssSave(v, true)` completes without error and leaves `v`
in the destination object, whatever the object held before. The buffer's length
is assumed to be a valid `size_t` below `2 ^ 63`. -/
theorem C1_protected_round_trip (E : Env) (D : TypeDesc) (hv : D.has_ssVersions = false)
    (hrt : RoundTrips E D) (v obj : D.T) (hfit : E.Fits (ssSave E D v true).length) :
    (ssLoad E D (BufferReader.over (ssSave E D v true)) obj true).err = none ∧
      (ssLoad E D (BufferReader.over (ssSave E D v true)) obj true).obj = v := by
  have h := BufferReader.WF_over hfit
  have hc : (BufferReader.over (ssSave E D v true)).cdata = ssSave E D v true ++ [] := by
    rw [BufferReader.cdata_over, List.append_nil]
  have hl : (ssSave E D v true).length ≤ (BufferReader.over (ssSave E D v true)).rest E := by
    rw [BufferReader.rest_over hfit]
  rw [ssLoad_ssSave_at hv hrt v h hc hl obj]
  exact ⟨rfl, rfl⟩

/-- The protected round trip of the example class value `7` into an object holding `0`. -/
theorem C1_protected_round_trip_witness :
    (exClass exEnv).has_ssVersions = false ∧ RoundTrips exEnv (exClass exEnv) ∧
      exEnv.Fits (ssSave exEnv (exClass exEnv) (7 : Byte) true).length ∧
      (ssLoad exEnv (exClass exEnv)
        (BufferReader.over (ssSave exEnv (exClass exEnv) (7 : Byte) true)) (0 : Byte) true).err
          = none ∧
      (ssLoad exEnv (exClass exEnv)
        (BufferReader.over (ssSave exEnv (exClass exEnv) (7 : Byte) true)) (0 : Byte) true).obj
          = (7 : Byte) :=
  ⟨rfl, exClass_roundTrips exEnv, ⟨by decide, by decide⟩,
    C1_protected_round_trip exEnv (exClass exEnv) rfl (exClass_roundTrips exEnv) (7 : Byte)
      (0 : Byte) ⟨by decide, by decide⟩⟩

/-- C2. Unprotected round trip: for a type without version history whose
`ssSaveImpl` / `ssLoadImpl` pair round-trips and every value `v`, unprotected
`ssLoad` of the buffer `ssSave(v, false)` completes without error and leaves
`v` in the destination object. The buffer's length is assumed to be a valid
`size_t` below `2 ^ 63`. -/
theorem C2_unprotected_round_trip (E : Env) (D : TypeDesc) (hv : D.has_ssVersions = false)
    (hrt : RoundTrips E D) (v obj : D.T) (hfit : E.Fits (ssSave E D v false).length) :
    (ssLoad E D (BufferReader.over (ssSave E D v false)) obj false).err = none ∧
      (ssLoad E D (BufferReader.over (ssSave E D v false)) obj false).obj = v :=
  ssLoad_ssSave_unprotected_at hv hrt v (BufferReader.WF_over hfit)
    (BufferReader.bufferRest_over hfit) obj

/-- The unprotected round trip of the example class value `7` into an object holding `0`. -/
theorem C2_unprotected_round_trip_witness :
    (exClass exEnv).has_ssVersions = false ∧ RoundTrips exEnv (exClass exEnv) ∧
      exEnv.Fits (ssSave exEnv (exClass exEnv) (7 : Byte) false).length ∧
      (ssLoad exEnv (exClass exEnv)
        (BufferReader.over (ssSave exEnv (exClass exEnv) (7 : Byte) false)) (0 : Byte) false).err
          = none ∧
      (ssLoad exEnv (exClass exEnv)
        (BufferReader.over (ssSave exEnv (exClass exEnv) (7 : Byte) false)) (0 : Byte) false).obj
          = (7 : Byte) :=
  ⟨rfl, exClass_roundTrips exEnv, ⟨by decide, by decide⟩,
    C2_unprotected_round_trip exEnv (exClass exEnv) rfl (exClass_roundTrips exEnv) (7 : Byte)
      (0 : Byte) ⟨by decide, by decide⟩⟩

/-- The bytes of the protected frame of the example class value `7`. -/
theorem ssSave_exClass_bytes :
    ssSave exEnv (exClass exEnv) (7 : Byte) true
      = [6, 0, 0, 0, 0, 0, 0, 0, 7, 0, 0, 0, 83, 83, 0, 0, 0, 0, 0, 0, 0, 0,
          0, 0, 0, 0, 0, 7] := by
  decide

/-- C5. Corruption detection: when the frame `ssSave(v, true)` is altered only
inside its payload region (same length, same header bytes) so that the checksum
of the altered payload differs from the stored `payloadChecksum`, protected
`ssLoad` fails with the integrity error and the destination object is not
touched. -/
theorem C5_corruption_detection (E : Env) (D : TypeDesc) (v obj : D.T) (altered : Buffer)
    (hl : altered.length = (ssSave E D v true).length)
    (hh : altered.take E.headerLen = (ssSave E D v true).take E.headerLen)
    (hsum : E.hash (altered.drop E.headerLen) ≠ (BufferReader.over altered).hdrHash)
    (hfit : E.Fits altered.length) :
    (ssLoad E D (BufferReader.over altered) obj true).err = some Err.integrity ∧
      (ssLoad E D (BufferReader.over altered) obj true).obj = obj := by
  have hpl : (altered.drop E.headerLen).length = (payloadBytes D v).length := by
    rw [List.length_drop, hl, length_ssSave_protected]
    omega
  have hc : (BufferReader.over altered).cdata
      = frameBytes (altered.drop E.headerLen).length (E.hash (payloadBytes D v)) E.ssMagic 0
          (altered.drop E.headerLen) ++ [] := by
    rw [BufferReader.cdata_over, List.append_nil, frameBytes_split, hpl,
      ← take_header_ssSave, ← hh, List.take_append_drop]
  have hb : E.hash (payloadBytes D v) < 2 ^ 32 := Nat.mod_lt _ (by norm_num)
  have hlen : E.headerLen + (altered.drop E.headerLen).length
      ≤ (BufferReader.over altered).rest E := by
    rw [BufferReader.rest_over hfit, hpl, hl, length_ssSave_protected]
  obtain ⟨_, h2, _, _, _⟩ := hdr_of_frameBytes hc rfl
  rw [Nat.mod_eq_of_lt (lt_of_lt_of_le hb (by norm_num))] at h2
  rw [h2] at hsum
  rw [ssLoad_frame D (BufferReader.WF_over hfit) obj hc hlen hb, if_pos (Ne.symm hsum)]
  exact ⟨rfl, rfl⟩

/-- The example frame with its last payload byte changed is rejected. -/
theorem C5_corruption_detection_witness :
    exCorrupted.length = (ssSave exEnv (exClass exEnv) (7 : Byte) true).length ∧
      exCorrupted.take exEnv.headerLen
        = (ssSave exEnv (exClass exEnv) (7 : Byte) true).take exEnv.headerLen ∧
      exEnv.hash (exCorrupted.drop exEnv.headerLen) ≠ (BufferReader.over exCorrupted).hdrHash ∧
      exEnv.Fits exCorrupted.length ∧
      (ssLoad exEnv (exClass exEnv) (BufferReader.over exCorrupted) (3 : Byte) true).err
        = some Err.integrity ∧
      (ssLoad exEnv (exClass exEnv) (BufferReader.over exCorrupted) (3 : Byte) true).obj
        = (3 : Byte) :=
  ⟨by decide, by decide, by decide, ⟨by decide, by decide⟩,
    C5_corruption_detection exEnv (exClass exEnv) (7 : Byte) (3 : Byte) exCorrupted
      (by decide) (by decide) (by decide) ⟨by decide, by decide⟩⟩

/-- C6. Header validation: at a well-formed cursor with at least a header's
worth of unread bytes, protected `ssLoad` fails with the integrity error
whenever the magic bytes read differ from `ssMagic` or the 64-bit flags field
is nonzero; the cursor then stands right behind the header (no payload byte has
been read, whatever size the header declares) and the destination object is
not touched. -/
theorem C6_header_validation (E : Env) (D : TypeDesc) (r : BufferReader) (obj : D.T)
    (h : r.WF E) (hlen : E.headerLen ≤ r.rest E)
    (hbad : r.hdrMagic E ≠ E.ssMagic ∨ r.hdrFlags E ≠ 0) :
    ssLoad E D r obj true
      = { err := some Err.integrity, buf := r.skip E.headerLen, obj := obj } := by
  rw [ssLoad_header D h hlen obj, if_pos hbad]

/-- The example frame with a wrong magic byte is rejected behind the header. -/
theorem C6_header_validation_witness :
    (BufferReader.over exBadMagic).WF exEnv ∧
      exEnv.headerLen ≤ (BufferReader.over exBadMagic).rest exEnv ∧
      ((BufferReader.over exBadMagic).hdrMagic exEnv ≠ exEnv.ssMagic ∨
        (BufferReader.over exBadMagic).hdrFlags exEnv ≠ 0) ∧
      ssLoad exEnv (exClass exEnv) (BufferReader.over exBadMagic) (3 : Byte) true
        = { err := some Err.integrity
            buf := (BufferReader.over exBadMagic).skip exEnv.headerLen
            obj := (3 : Byte) } :=
  ⟨BufferReader.WF_over ⟨by decide, by decide⟩, by decide, Or.inl (by decide),
    C6_header_validation exEnv (exClass exEnv) (BufferReader.over exBadMagic) (3 : Byte)
      (BufferReader.WF_over ⟨by decide, by decide⟩) (by decide) (Or.inl (by decide))⟩

/-- C7. Oversized-size rejection: at a well-formed cursor standing at a header
with the right magic and zero flags whose declared `payloadSize` exceeds
`std::numeric_limits<size_t>::max()`, protected `ssLoad` fails with the
too-large error; the cursor then stands right behind the header, so no payload
byte has been read. -/
theorem C7_oversized_rejection (E : Env) (D : TypeDesc) (r : BufferReader) (obj : D.T)
    (h : r.WF E) (hlen : E.headerLen ≤ r.rest E)
    (hmagic : r.hdrMagic E = E.ssMagic) (hflags : r.hdrFlags E = 0)
    (hsize : r.hdrSize > E.sizeMax) :
    ssLoad E D r obj true
      = { err := some Err.tooLarge, buf := r.skip E.headerLen, obj := obj } := by
  rw [ssLoad_header D h hlen obj, if_neg (by simp [hmagic, hflags]), if_pos hsize]

/-- On the 32-bit example platform a declared size of `2 ^ 32` is rejected behind the header. -/
theorem C7_oversized_rejection_witness :
    (BufferReader.over exHuge).WF exEnv32 ∧
      exEnv32.headerLen ≤ (BufferReader.over exHuge).rest exEnv32 ∧
      (BufferReader.over exHuge).hdrMagic exEnv32 = exEnv32.ssMagic ∧
      (BufferReader.over exHuge).hdrFlags exEnv32 = 0 ∧
      (BufferReader.over exHuge).hdrSize > exEnv32.sizeMax ∧
      ssLoad exEnv32 (exClass exEnv32) (BufferReader.over exHuge) (3 : Byte) true
        = { err := some Err.tooLarge
            buf := (BufferReader.over exHuge).skip exEnv32.headerLen
            obj := (3 : Byte) } :=
  ⟨BufferReader.WF_over ⟨by decide, by decide⟩, by decide, by decide, by decide, by decide,
    C7_oversized_rejection exEnv32 (exClass exEnv32) (BufferReader.over exHuge) (3 : Byte)
      (BufferReader.WF_over ⟨by decide, by decide⟩) (by decide) (by decide) (by decide)
      (by decide)⟩

/-- C8. Migration chain: for a type with history `V0..Vn` (`Vn = T`) and every
tag `i <= n`: decoding with the tag `n` is `ssLoadImpl` of `T` itself (the chain
is empty), whatever the buffer holds; decoding with a tag `i < n` (with
`n = i + k + 1`) runs `ssLoadImpl` at shape `Vi` on a default constructed object
and, when that completes, yields `ssConvertFrom` of `T`, applied to the
destination object, of the value the conversions `i+1, ..., n-1` produce in
increasing order from the decoded `Vi`, each conversion applied once to the
previous step's value; when `Vi` fails to decode, its error is the result and
the destination object is untouched. -/
theorem C8_migration_chain (D : TypeDesc) (hv : D.has_ssVersions = true)
    (buffer : BufferReader) (obj : D.T) :
    ssLoadAndConvert D buffer obj (some D.version) = D.loadImpl D.version buffer obj ∧
      ∀ (i k : Nat) (h : i + k + 1 = D.version),
        ssLoadAndConvert D buffer obj (some i)
          = match (D.loadImpl i buffer (D.ctor i)).err with
            | some e =>
              { err := some e, buf := (D.loadImpl i buffer (D.ctor i)).buf, obj := obj }
            | none =>
              { err := none
                buf := (D.loadImpl i buffer (D.ctor i)).buf
                obj := D.recast h (D.ssConvertFrom (i + k) (D.recast h.symm obj)
                  (migrate D i k (D.loadImpl i buffer (D.ctor i)).obj)) } := by
  unfold ssLoadAndConvert
  rw [hv]
  exact ⟨ssLoadAndConvertIter_current D buffer obj,
    fun i k h => ssLoadAndConvertIter_older_all D buffer obj i k h⟩

/-- The history `V0 → V1 → V2`: with tag `2` the current shape is decoded
directly, with tag `0` the result is `V2.ssConvertFrom(V1.ssConvertFrom(v0))`,
and from an empty buffer the bounds error of `V0` is passed on; a history of
one shape decodes directly with tag `0`. -/
theorem C8_migration_chain_witness :
    (exHist exEnv).has_ssVersions = true ∧ (exHistOne exEnv).has_ssVersions = true ∧
      0 + 1 + 1 = (exHist exEnv).version ∧
      ssLoadAndConvert (exHist exEnv) (BufferReader.over [9])
          ((0 : Byte), (0 : Byte), (5 : Byte)) (some (exHist exEnv).version)
        = (exHist exEnv).loadImpl (exHist exEnv).version (BufferReader.over [9])
            ((0 : Byte), (0 : Byte), (5 : Byte)) ∧
      ssLoadAndConvert (exHist exEnv) (BufferReader.over [9])
          ((0 : Byte), (0 : Byte), (5 : Byte)) (some 0)
        = { err := none
            buf := (BufferReader.over [9]).skip 1
            obj := exConvert 1 ((0 : Byte), (0 : Byte), (5 : Byte))
              (exConvert 0 (exCtor 1) (9 : Byte)) } ∧
      ssLoadAndConvert (exHist exEnv) (BufferReader.over [])
          ((0 : Byte), (0 : Byte), (5 : Byte)) (some 0)
        = { err := some Err.bounds
            buf := BufferReader.over []
            obj := ((0 : Byte), (0 : Byte), (5 : Byte)) } ∧
      ssLoadAndConvert (exHistOne exEnv) (BufferReader.over [9]) (3 : Byte)
          (some (exHistOne exEnv).version)
        = { err := none, buf := (BufferReader.over [9]).skip 1, obj := (9 : Byte) } :=
  ⟨rfl, rfl, rfl,
    (C8_migration_chain (exHist exEnv) rfl (BufferReader.over [9])
      ((0 : Byte), (0 : Byte), (5 : Byte))).1,
    (C8_migration_chain (exHist exEnv) rfl (BufferReader.over [9])
      ((0 : Byte), (0 : Byte), (5 : Byte))).2 0 1 rfl,
    (C8_migration_chain (exHist exEnv) rfl (BufferReader.over [])
      ((0 : Byte), (0 : Byte), (5 : Byte))).2 0 1 rfl,
    (C8_migration_chain (exHistOne exEnv) rfl (BufferReader.over [9]) (3 : Byte)).1⟩

/-- C9. Data newer than code is not accepted: for a type with history whose
current version is below the tag `t`, `ssLoadAndConvert` with that tag ends in
the assertion of the unreachable overload and leaves the destination object
as it was; so does unprotected `ssLoad` on bytes that start with the tag, and
protected `ssLoad` on a frame with a valid checksum whose payload starts with
the tag does not complete either (the assertion, or the bounds error when the
payload is too short to hold the reserved field) and leaves the object as it was. -/
theorem C9_newer_data_rejected (E : Env) (D : TypeDesc) (hv : D.has_ssVersions = true)
    (obj : D.T) (t : Byte) (ht : D.version < t.val) (buffer : BufferReader)
    (ru : BufferReader) (moreU : Buffer) (hru : ru.WF E)
    (hbu : ru.bufferRest E = t :: moreU)
    (rp : BufferReader) (moreP tail : Buffer) (hrp : rp.WF E)
    (hcp : rp.cdata
      = frameBytes (t :: moreP).length (E.hash (t :: moreP)) E.ssMagic 0 (t :: moreP) ++ tail)
    (hlp : E.headerLen + (t :: moreP).length ≤ rp.rest E) :
    ssLoadAndConvert D buffer obj (some t.val)
        = { err := some Err.assertion, buf := buffer, obj := obj } ∧
      ssLoad E D ru obj false
        = { err := some Err.assertion, buf := ru.skip 1, obj := obj } ∧
      (ssLoad E D rp obj true).err ≠ none ∧ (ssLoad E D rp obj true).obj = obj ∧
      (4 ≤ moreP.length → (ssLoad E D rp obj true).err = some Err.assertion) := by
  refine ⟨ssLoadAndConvert_newer D hv buffer obj t.val ht, ?_, ?_⟩
  · obtain ⟨e1, _, _⟩ := ssReadVersion_hist hv hru hbu
    unfold ssLoad
    simp only [e1, ssLoadAndConvert_newer D hv _ _ t.val ht]
    rfl
  · have hb : E.hash (t :: moreP) < 2 ^ 32 := Nat.mod_lt _ (by norm_num)
    obtain ⟨wg, bg⟩ := payload_cursor hrp hcp rfl hlp
    rw [ssLoad_frame D hrp obj hcp hlp hb, if_neg (by simp)]
    exact ssLoadPayload_newer hv wg bg ht _ obj

/-- The example history, current version `2`, rejects the tag `3` in both modes. -/
theorem C9_newer_data_rejected_witness :
    (exHist exEnv).has_ssVersions = true ∧ (exHist exEnv).version < (3 : Byte).val ∧
      (BufferReader.over exNewerPlain).WF exEnv ∧
      (BufferReader.over exNewerPlain).bufferRest exEnv = (3 : Byte) :: [9] ∧
      (BufferReader.over exNewerFrame).WF exEnv ∧
      (BufferReader.over exNewerFrame).cdata
        = frameBytes ((3 : Byte) :: [0, 0, 0, 0, 9]).length
            (exEnv.hash ((3 : Byte) :: [0, 0, 0, 0, 9])) exEnv.ssMagic 0
            ((3 : Byte) :: [0, 0, 0, 0, 9]) ++ [] ∧
      exEnv.headerLen + ((3 : Byte) :: [0, 0, 0, 0, 9]).length
        ≤ (BufferReader.over exNewerFrame).rest exEnv ∧
      ssLoadAndConvert (exHist exEnv) (BufferReader.over [9])
          ((1 : Byte), (2 : Byte), (5 : Byte)) (some (3 : Byte).val)
        = { err := some Err.assertion
            buf := BufferReader.over [9]
            obj := ((1 : Byte), (2 : Byte), (5 : Byte)) } ∧
      ssLoad exEnv (exHist exEnv) (BufferReader.over exNewerPlain)
          ((1 : Byte), (2 : Byte), (5 : Byte)) false
        = { err := some Err.assertion
            buf := (BufferReader.over exNewerPlain).skip 1
            obj := ((1 : Byte), (2 : Byte), (5 : Byte)) } ∧
      (ssLoad exEnv (exHist exEnv) (BufferReader.over exNewerFrame)
          ((1 : Byte), (2 : Byte), (5 : Byte)) true).err ≠ none ∧
      (ssLoad exEnv (exHist exEnv) (BufferReader.over exNewerFrame)
          ((1 : Byte), (2 : Byte), (5 : Byte)) true).obj
        = ((1 : Byte), (2 : Byte), (5 : Byte)) ∧
      (4 ≤ ([0, 0, 0, 0, 9] : Buffer).length →
        (ssLoad exEnv (exHist exEnv) (BufferReader.over exNewerFrame)
          ((1 : Byte), (2 : Byte), (5 : Byte)) true).err = some Err.assertion) :=
  ⟨rfl, by decide, BufferReader.WF_over ⟨by decide, by decide⟩, by decide,
    BufferReader.WF_over ⟨by decide, by decide⟩, by decide, by decide,
    C9_newer_data_rejected exEnv (exHist exEnv) rfl ((1 : Byte), (2 : Byte), (5 : Byte))
      (3 : Byte) (by decide) (BufferReader.over [9])
      (BufferReader.over exNewerPlain) [9] (BufferReader.WF_over ⟨by decide, by decide⟩)
      (by decide)
      (BufferReader.over exNewerFrame) [0, 0, 0, 0, 9] []
      (BufferReader.WF_over ⟨by decide, by decide⟩) (by decide) (by decide)⟩

/-- C10. Nested lightweight encoding: for a field-list type, `ssSaveImpl(obj)`
is the concatenation, in declared field order, of the unprotected encodings
`ssSave(f, false)` of its fields, each of which is the field's version tag and
`ssSaveImpl` bytes with no size, checksum, magic or flags; this is the same
under both modes of the outermost call: the protected encoding of the object
is the one frame header followed by the tag, the reserved `u32(0)` and those
field bytes, the unprotected encoding is the tag followed by those field bytes. -/
theorem C10_nested_lightweight {α : Type} (E : Env) (ssTuple : List (Field α)) (obj : α)
    (is_class : Bool) (ctor : α) :
    ssSaveImpl E (Strategy.tuple ssTuple) obj
        = (ssTuple.map (fun f => ssSave E f.D (f.get obj) false)).flatten ∧
      (ssTuple.map (fun f => ssSave E f.D (f.get obj) false)).flatten
        = (ssTuple.map (fun f => versionTag f.D ++ f.D.saveImpl (f.get obj))).flatten ∧
      ssSave E (plainType E is_class ctor (Strategy.tuple ssTuple)) obj true
        = frameBytes
            (versionTag (plainType E is_class ctor (Strategy.tuple ssTuple)) ++ (toLE 4 0 ++
              (ssTuple.map (fun f => versionTag f.D ++ f.D.saveImpl (f.get obj))).flatten)).length
            (E.hash (versionTag (plainType E is_class ctor (Strategy.tuple ssTuple)) ++
              (toLE 4 0 ++
              (ssTuple.map (fun f => versionTag f.D ++ f.D.saveImpl (f.get obj))).flatten)))
            E.ssMagic 0
            (versionTag (plainType E is_class ctor (Strategy.tuple ssTuple)) ++ (toLE 4 0 ++
              (ssTuple.map (fun f => versionTag f.D ++ f.D.saveImpl (f.get obj))).flatten)) ∧
      ssSave E (plainType E is_class ctor (Strategy.tuple ssTuple)) obj false
        = versionTag (plainType E is_class ctor (Strategy.tuple ssTuple)) ++
            (ssTuple.map (fun f => versionTag f.D ++ f.D.saveImpl (f.get obj))).flatten := by
  have h1 : ssSaveImpl E (Strategy.tuple ssTuple) obj
      = (ssTuple.map (fun f => ssSave E f.D (f.get obj) false)).flatten := by
    show ssSaveImplViaTuple E obj ssTuple [] = _
    rw [ssSaveImplViaTuple_eq]
    rfl
  have h2 : (ssTuple.map (fun f => ssSave E f.D (f.get obj) false))
      = (ssTuple.map (fun f => versionTag f.D ++ f.D.saveImpl (f.get obj))) :=
    List.map_congr_left (fun f _ => ssSave_unprotected E f.D (f.get obj))
  have h3 : (plainType E is_class ctor (Strategy.tuple ssTuple)).saveImpl obj
      = (ssTuple.map (fun f => versionTag f.D ++ f.D.saveImpl (f.get obj))).flatten := by
    rw [← h2, ← h1]
    rfl
  refine ⟨h1, by rw [h2], ?_, ?_⟩
  · rw [ssSave_protected, payloadBytes, h3]
  · rw [ssSave_unprotected, h3]

/-- The encodings of the example pair `(1, 2)`: no field carries a frame. -/
theorem ssSave_exPair_bytes :
    ssSave exEnv (exPair exEnv) ((1 : Byte), (2 : Byte)) false = [0, 1, 2] ∧
      ssSave exEnv (exPair exEnv) ((1 : Byte), (2 : Byte)) true
        = [7, 0, 0, 0, 0, 0, 0, 0, 3, 0, 0, 0, 83, 83, 0, 0, 0, 0, 0, 0, 0, 0,
            0, 0, 0, 0, 0, 1, 2] := by
  decide

/-- C11. Bounds enforcement: for every cursor and every `sz` greater than
`rest()`, the copying `readRaw(buffer, sz)`, the slicing `readRaw(sz)` and
`read<T>()` with `sizeof(T) = sz` all fail with the bounds error and leave the
cursor, its position included, as it was; nothing is copied or returned. -/
theorem C11_bounds_enforcement (E : Env) (r : BufferReader) (sz : Nat) (h : sz > r.rest E) :
    r.readRawInto E sz = (Except.error Err.bounds, r) ∧
      r.readRaw E sz = (Except.error Err.bounds, r) ∧
      r.read E sz = (Except.error Err.bounds, r) :=
  ⟨BufferReader.readRawInto_fail E r sz h, BufferReader.readRaw_fail E r sz h,
    BufferReader.read_fail E r sz h⟩

/-- Reading four bytes from a cursor over three. -/
theorem C11_bounds_enforcement_witness :
    4 > (BufferReader.over [1, 2, 3]).rest exEnv ∧
      (BufferReader.over [1, 2, 3]).readRawInto exEnv 4
        = (Except.error Err.bounds, BufferReader.over [1, 2, 3]) ∧
      (BufferReader.over [1, 2, 3]).readRaw exEnv 4
        = (Except.error Err.bounds, BufferReader.over [1, 2, 3]) ∧
      (BufferReader.over [1, 2, 3]).read exEnv 4
        = (Except.error Err.bounds, BufferReader.over [1, 2, 3]) :=
  ⟨by decide, C11_bounds_enforcement exEnv (BufferReader.over [1, 2, 3]) 4 (by decide)⟩

/-- C14. Encoding sizes: the protected encoding of a value is longer than its
unprotected encoding by exactly `8 + 4 + len(ssMagic) + 8 + 4` bytes (size,
checksum, magic, flags and the reserved `uint32_t`), hence strictly longer. -/
theorem C14_encoding_sizes (E : Env) (D : TypeDesc) (v : D.T) :
    (ssSave E D v true).length
        = (ssSave E D v false).length + 8 + 4 + E.ssMagic.length + 8 + 4 ∧
      (ssSave E D v false).length < (ssSave E D v true).length := by
  have h1 : (ssSave E D v true).length
      = (ssSave E D v false).length + 8 + 4 + E.ssMagic.length + 8 + 4 := by
    rw [length_ssSave_protected, ssSave_unprotected]
    simp only [payloadBytes, Env.headerLen, List.length_append, length_toLE]
    omega
  exact ⟨h1, by omega⟩

/-- C13, as the claim states it, fails in unprotected mode: decoding the example
pair from a buffer that ends after the first field fails with the bounds error,
and the destination object, `(5, 6)` before the call, is `(1, 6)` afterwards. -/
theorem C13_counterexample :
    (ssLoad exEnv (exPair exEnv) (BufferReader.over exTruncPair)
        ((5 : Byte), (6 : Byte)) false).err = some Err.bounds ∧
      (ssLoad exEnv (exPair exEnv) (BufferReader.over exTruncPair)
        ((5 : Byte), (6 : Byte)) false).obj = ((1 : Byte), (6 : Byte)) ∧
      ((1 : Byte), (6 : Byte)) ≠ ((5 : Byte), (6 : Byte)) :=
  ⟨by decide, rfl, by decide⟩

/-- C13, amended. No partial results in protected mode: protected `ssLoad`
either fails, and then the destination object still holds the value it had
before the call, or completes, and then the object is the value
`ssLoadAndConvert` built, without error, from a default constructed object.
In unprotected mode the object is unchanged when reading the version tag
fails; otherwise `ssLoadAndConvert` decodes in place into the object itself. -/
theorem C13_no_partial_results (E : Env) (D : TypeDesc) (r : BufferReader) (obj : D.T) :
    (((ssLoad E D r obj true).err ≠ none ∧ (ssLoad E D r obj true).obj = obj) ∨
      ((ssLoad E D r obj true).err = none ∧
        ∃ g ver, (ssLoadAndConvert D g (D.ctor D.version) ver).err = none ∧
          (ssLoad E D r obj true).obj
            = (ssLoadAndConvert D g (D.ctor D.version) ver).obj)) ∧
      ((∃ e b, ssLoad E D r obj false = { err := some e, buf := b, obj := obj }) ∨
        (∃ ver b, ssLoad E D r obj false = ssLoadAndConvert D b obj ver)) :=
  ⟨ssLoad_protected_obj E D r obj, ssLoad_unprotected_obj E D r obj⟩

/-- C15, as the claim states it, fails: the constructor completes for a region
of ten bytes over a buffer of three, and for a region starting at offset five
of a buffer of three. -/
theorem C15_counterexample :
    BufferReader.new exEnv [1, 2, 3] none (some 10) none = Except.ok exRegionBeyond ∧
      ¬ (exRegionBeyond.offsetEnd ≤ exRegionBeyond.m_buffer.length) ∧
      BufferReader.new exEnv [1, 2, 3] (some 5) none none = Except.ok exStartBeyond ∧
      ¬ (exStartBeyond.offsetStart ≤ exStartBeyond.offsetEnd) :=
  ⟨rfl, by decide, rfl, by decide⟩

/-- C15, amended. Region on construction: a `BufferReader` whose constructor
completes is over the given buffer, starts at the given `offsetStart` (or `0`),
has position `0`, so `0 <= position <= size`, and either neither `len` nor
`offsetEnd` was given and `offsetEnd` is the length of the buffer, or exactly
one of them was given and `offsetStart <= offsetEnd`. The end of the region is
not compared with the length of the buffer. -/
theorem C15_region_on_construction (E : Env) (buffer : Buffer)
    (offsetStart len offsetEnd : Option Nat) (r : BufferReader)
    (h : BufferReader.new E buffer offsetStart len offsetEnd = Except.ok r) :
    r.m_buffer = buffer ∧ r.offsetStart = offsetStart.getD 0 ∧ r.position = 0 ∧
      r.position ≤ r.size E ∧
      ((len = none ∧ offsetEnd = none ∧ r.offsetEnd = buffer.length) ∨
        (len.isSome ≠ offsetEnd.isSome ∧ r.offsetStart ≤ r.offsetEnd)) := by
  unfold BufferReader.new at h
  cases len <;> cases offsetEnd <;> simp at h
  · split at h
    · cases h
      simp [BufferReader.offsetStart, BufferReader.position, BufferReader.offsetEnd]
    · cases h
  · split at h
    · split at h
      · cases h
        simp_all [BufferReader.offsetStart, BufferReader.position, BufferReader.offsetEnd]
      · cases h
    · cases h
  · split at h
    · split at h
      · cases h
        simp_all [BufferReader.offsetStart, BufferReader.position, BufferReader.offsetEnd]
      · cases h
    · cases h

/-- The constructor call `BufferReader(buffer, 1, 2)` over three bytes. -/
theorem C15_region_on_construction_witness :
    BufferReader.new exEnv [1, 2, 3] (some 1) (some 2) none = Except.ok exRegionInside ∧
      exRegionInside.m_buffer = [1, 2, 3] ∧
      exRegionInside.offsetStart = (some 1).getD 0 ∧ exRegionInside.position = 0 ∧
      exRegionInside.position ≤ exRegionInside.size exEnv ∧
      (((some 2 : Option Nat) = none ∧ (none : Option Nat) = none ∧
          exRegionInside.offsetEnd = ([1, 2, 3] : Buffer).length) ∨
        ((some 2 : Option Nat).isSome ≠ (none : Option Nat).isSome ∧
          exRegionInside.offsetStart ≤ exRegionInside.offsetEnd)) :=
  ⟨rfl, C15_region_on_construction exEnv [1, 2, 3] (some 1) (some 2) none exRegionInside rfl⟩

/-- C16 at the failing input: on the 32-bit example platform, from a
well-formed cursor at position `0` over three bytes, `advance(4294967296)`
passes both assertions and leaves the position at `0`, although
`position + delta` exceeds `size`. -/
theorem C16_failing_input :
    (BufferReader.over [1, 2, 3]).position ≤ (BufferReader.over [1, 2, 3]).size exEnv32 ∧
      (BufferReader.over [1, 2, 3]).advance exEnv32 4294967296
        = (none, BufferReader.over [1, 2, 3]) ∧
      ¬ (((BufferReader.over [1, 2, 3]).position : Int) + 4294967296
          ≤ ((BufferReader.over [1, 2, 3]).size exEnv32 : Int)) := by
  decide

/-- C17. Version tag of a plain type: for a class without version history,
`ssReadVersion` on a cursor whose next byte is `t` consumes that one byte and
returns the tag only if it is `0`, a nonzero byte failing the assertion, so that
unprotected `ssLoad` reaches `ssLoadImpl` only for `0` and protected `ssLoad`
of a frame whose payload starts with a nonzero byte fails without touching the
object; for a non-class type without history `ssReadVersion` consumes nothing
and returns no tag; for a type with history it consumes the one byte and
returns it unchanged. -/
theorem C17_version_tag (E : Env) (Dc Dn Dh : TypeDesc)
    (hc1 : Dc.has_ssVersions = false) (hc2 : Dc.is_class = true)
    (hn1 : Dn.has_ssVersions = false) (hn2 : Dn.is_class = false)
    (hh : Dh.has_ssVersions = true)
    (r : BufferReader) (t : Byte) (more : Buffer) (hr : r.WF E)
    (hb : r.bufferRest E = t :: more) (obj : Dc.T)
    (rp : BufferReader) (moreP tail : Buffer) (hrp : rp.WF E)
    (hcp : rp.cdata
      = frameBytes (t :: moreP).length (E.hash (t :: moreP)) E.ssMagic 0 (t :: moreP) ++ tail)
    (hlp : E.headerLen + (t :: moreP).length ≤ rp.rest E) :
    ssReadVersion E Dc r
        = (if t.val = 0 then (Except.ok (some 0), r.skip 1)
          else (Except.error Err.assertion, r.skip 1)) ∧
      (r.skip 1).position = r.position + 1 ∧
      ssLoad E Dc r obj false
        = (if t.val = 0 then Dc.loadImpl Dc.version (r.skip 1) obj
          else { err := some Err.assertion, buf := r.skip 1, obj := obj }) ∧
      (t.val = 0 ∨ ssLoad E Dc rp obj true
        = { err := some Err.assertion
            buf := rp.skip (E.headerLen + (t :: moreP).length)
            obj := obj }) ∧
      ssReadVersion E Dn r = (Except.ok none, r) ∧
      ssReadVersion E Dh r = (Except.ok (some t.val), r.skip 1) := by
  have e1 := ssReadVersion_class hc1 hc2 hr hb
  refine ⟨e1, rfl, ?_, ?_, ssReadVersion_scalar E hn1 hn2 r, (ssReadVersion_hist hh hr hb).1⟩
  · unfold ssLoad
    simp only [Bool.false_eq_true, if_false, e1]
    by_cases ht : t.val = 0
    · simp [ht, ssLoadAndConvert, hc1, hc2]
    · simp [ht]
  · by_cases ht : t.val = 0
    · exact Or.inl ht
    · right
      have hlt : E.hash (t :: moreP) < 2 ^ 32 := Nat.mod_lt _ (by norm_num)
      obtain ⟨wg, bg⟩ := payload_cursor hrp hcp rfl hlp
      rw [ssLoad_frame Dc hrp obj hcp hlp hlt, if_neg (by simp)]
      unfold ssLoadPayload
      rw [ssReadVersion_class hc1 hc2 wg bg, if_neg ht]

/-- The version byte `4` at the example class, the example scalar and the
example history. -/
theorem C17_version_tag_witness :
    (exClass exEnv).has_ssVersions = false ∧ (exClass exEnv).is_class = true ∧
      (exScalar exEnv).has_ssVersions = false ∧ (exScalar exEnv).is_class = false ∧
      (exHist exEnv).has_ssVersions = true ∧
      (BufferReader.over exBadTagPlain).WF exEnv ∧
      (BufferReader.over exBadTagPlain).bufferRest exEnv = (4 : Byte) :: [9] ∧
      (BufferReader.over exBadTagFrame).WF exEnv ∧
      (BufferReader.over exBadTagFrame).cdata
        = frameBytes ((4 : Byte) :: [0, 0, 0, 0, 9]).length
            (exEnv.hash ((4 : Byte) :: [0, 0, 0, 0, 9])) exEnv.ssMagic 0
            ((4 : Byte) :: [0, 0, 0, 0, 9]) ++ [] ∧
      exEnv.headerLen + ((4 : Byte) :: [0, 0, 0, 0, 9]).length
        ≤ (BufferReader.over exBadTagFrame).rest exEnv ∧
      ssReadVersion exEnv (exClass exEnv) (BufferReader.over exBadTagPlain)
        = (Except.error Err.assertion, (BufferReader.over exBadTagPlain).skip 1) ∧
      ssLoad exEnv (exClass exEnv) (BufferReader.over exBadTagPlain) (3 : Byte) false
        = { err := some Err.assertion
            buf := (BufferReader.over exBadTagPlain).skip 1
            obj := (3 : Byte) } ∧
      ssReadVersion exEnv (exScalar exEnv) (BufferReader.over exBadTagPlain)
        = (Except.ok none, BufferReader.over exBadTagPlain) ∧
      ssReadVersion exEnv (exHist exEnv) (BufferReader.over exBadTagPlain)
        = (Except.ok (some 4), (BufferReader.over exBadTagPlain).skip 1) :=
  ⟨rfl, rfl, rfl, rfl, rfl, BufferReader.WF_over ⟨by decide, by decide⟩, by decide,
    BufferReader.WF_over ⟨by decide, by decide⟩, by decide, by decide,
    (C17_version_tag exEnv (exClass exEnv) (exScalar exEnv) (exHist exEnv) rfl rfl rfl rfl rfl
      (BufferReader.over exBadTagPlain) (4 : Byte) [9]
      (BufferReader.WF_over ⟨by decide, by decide⟩) (by decide) (3 : Byte)
      (BufferReader.over exBadTagFrame) [0, 0, 0, 0, 9] []
      (BufferReader.WF_over ⟨by decide, by decide⟩) (by decide) (by decide)).1,
    (C17_version_tag exEnv (exClass exEnv) (exScalar exEnv) (exHist exEnv) rfl rfl rfl rfl rfl
      (BufferReader.over exBadTagPlain) (4 : Byte) [9]
      (BufferReader.WF_over ⟨by decide, by decide⟩) (by decide) (3 : Byte)
      (BufferReader.over exBadTagFrame) [0, 0, 0, 0, 9] []
      (BufferReader.WF_over ⟨by decide, by decide⟩) (by decide) (by decide)).2.2.1,
    (C17_version_tag exEnv (exClass exEnv) (exScalar exEnv) (exHist exEnv) rfl rfl rfl rfl rfl
      (BufferReader.over exBadTagPlain) (4 : Byte) [9]
      (BufferReader.WF_over ⟨by decide, by decide⟩) (by decide) (3 : Byte)
      (BufferReader.over exBadTagFrame) [0, 0, 0, 0, 9] []
      (BufferReader.WF_over ⟨by decide, by decide⟩) (by decide) (by decide)).2.2.2.2.1,
    (C17_version_tag exEnv (exClass exEnv) (exScalar exEnv) (exHist exEnv) rfl rfl rfl rfl rfl
      (BufferReader.over exBadTagPlain) (4 : Byte) [9]
      (BufferReader.WF_over ⟨by decide, by decide⟩) (by decide) (3 : Byte)
      (BufferReader.over exBadTagFrame) [0, 0, 0, 0, 9] []
      (BufferReader.WF_over ⟨by decide, by decide⟩) (by decide) (by decide)).2.2.2.2.2⟩

/-- C18. Frame-delimited consumption: a protected `ssLoad` on a well-formed
cursor that completes leaves the cursor's position advanced by exactly
`8 + 4 + len(ssMagic) + 8 + payloadSize`, `payloadSize` being the size the
header declares, whatever the type decoded and however much of the payload its
decoder read; and for two types without history whose pairs round-trip, two
successive protected `ssLoad` calls on the buffer `ssSave(a, true) ++
ssSave(b, true)` yield `a`, leaving the cursor behind the first frame, and then
`b`, leaving it behind the second. -/
theorem C18_frame_delimited (E : Env) (D : TypeDesc) (r : BufferReader) (obj : D.T)
    (h : r.WF E) (hs : (ssLoad E D r obj true).err = none)
    (Da Db : TypeDesc) (hva : Da.has_ssVersions = false) (hrta : RoundTrips E Da)
    (hvb : Db.has_ssVersions = false) (hrtb : RoundTrips E Db)
    (a obja : Da.T) (b objb : Db.T)
    (hfit : E.Fits (ssSave E Da a true ++ ssSave E Db b true).length) :
    (ssLoad E D r obj true).buf = r.skip (8 + 4 + E.ssMagic.length + 8 + r.hdrSize) ∧
      (ssLoad E D r obj true).buf.position
        = r.position + (8 + 4 + E.ssMagic.length + 8 + r.hdrSize) ∧
      ssLoad E Da (BufferReader.over (ssSave E Da a true ++ ssSave E Db b true)) obja true
        = { err := none
            buf := (BufferReader.over (ssSave E Da a true ++ ssSave E Db b true)).skip
              (ssSave E Da a true).length
            obj := a } ∧
      ssLoad E Db
          ((BufferReader.over (ssSave E Da a true ++ ssSave E Db b true)).skip
            (ssSave E Da a true).length) objb true
        = { err := none
            buf := ((BufferReader.over (ssSave E Da a true ++ ssSave E Db b true)).skip
              (ssSave E Da a true).length).skip (ssSave E Db b true).length
            obj := b } := by
  have hb := ssLoad_protected_buf D h obj hs
  have w0 := BufferReader.WF_over hfit
  have r0 := BufferReader.rest_over hfit
  rw [List.length_append] at r0
  have c0 : (BufferReader.over (ssSave E Da a true ++ ssSave E Db b true)).cdata
      = ssSave E Da a true ++ ssSave E Db b true := BufferReader.cdata_over _
  have l0 : (ssSave E Da a true).length
      ≤ (BufferReader.over (ssSave E Da a true ++ ssSave E Db b true)).rest E := by omega
  have w1 := BufferReader.WF_advanced w0 l0
  have r1 := BufferReader.rest_skip w0 l0
  have c1 : ((BufferReader.over (ssSave E Da a true ++ ssSave E Db b true)).skip
      (ssSave E Da a true).length).cdata = ssSave E Db b true ++ [] := by
    rw [BufferReader.cdata_skip, c0, drop_append_len _ _ rfl, List.append_nil]
  refine ⟨hb, ?_, ssLoad_ssSave_at hva hrta a w0 c0 l0 obja,
    ssLoad_ssSave_at hvb hrtb b w1 c1 (by omega) objb⟩
  rw [hb]
  rfl

/-- The frame of the example class value `7` is consumed whole, and the frames
of `7` and `9`, one behind the other, decode to `7` and then `9`. -/
theorem C18_frame_delimited_witness :
    (BufferReader.over (ssSave exEnv (exClass exEnv) (7 : Byte) true)).WF exEnv ∧
      (ssLoad exEnv (exClass exEnv)
        (BufferReader.over (ssSave exEnv (exClass exEnv) (7 : Byte) true)) (0 : Byte) true).err
          = none ∧
      (exClass exEnv).has_ssVersions = false ∧ RoundTrips exEnv (exClass exEnv) ∧
      exEnv.Fits exTwoFrames.length ∧
      (ssLoad exEnv (exClass exEnv)
        (BufferReader.over (ssSave exEnv (exClass exEnv) (7 : Byte) true)) (0 : Byte)
          true).buf.position = 0 + (8 + 4 + 2 + 8 + 6) ∧
      ssLoad exEnv (exClass exEnv) (BufferReader.over exTwoFrames) (0 : Byte) true
        = { err := none
            buf := (BufferReader.over exTwoFrames).skip 28
            obj := (7 : Byte) } ∧
      ssLoad exEnv (exClass exEnv) ((BufferReader.over exTwoFrames).skip 28) (0 : Byte) true
        = { err := none
            buf := ((BufferReader.over exTwoFrames).skip 28).skip 28
            obj := (9 : Byte) } :=
  ⟨BufferReader.WF_over ⟨by decide, by decide⟩, by decide, rfl, exClass_roundTrips exEnv,
    ⟨by decide, by decide⟩,
    (C18_frame_delimited exEnv (exClass exEnv)
      (BufferReader.over (ssSave exEnv (exClass exEnv) (7 : Byte) true)) (0 : Byte)
      (BufferReader.WF_over ⟨by decide, by decide⟩) (by decide)
      (exClass exEnv) (exClass exEnv) rfl (exClass_roundTrips exEnv) rfl
      (exClass_roundTrips exEnv) (7 : Byte) (0 : Byte) (9 : Byte) (0 : Byte)
      ⟨by decide, by decide⟩).2.1,
    (C18_frame_delimited exEnv (exClass exEnv)
      (BufferReader.over (ssSave exEnv (exClass exEnv) (7 : Byte) true)) (0 : Byte)
      (BufferReader.WF_over ⟨by decide, by decide⟩) (by decide)
      (exClass exEnv) (exClass exEnv) rfl (exClass_roundTrips exEnv) rfl
      (exClass_roundTrips exEnv) (7 : Byte) (0 : Byte) (9 : Byte) (0 : Byte)
      ⟨by decide, by decide⟩).2.2.1,
    (C18_frame_delimited exEnv (exClass exEnv)
      (BufferReader.over (ssSave exEnv (exClass exEnv) (7 : Byte) true)) (0 : Byte)
      (BufferReader.WF_over ⟨by decide, by decide⟩) (by decide)
      (exClass exEnv) (exClass exEnv) rfl (exClass_roundTrips exEnv) rfl
      (exClass_roundTrips exEnv) (7 : Byte) (0 : Byte) (9 : Byte) (0 : Byte)
      ⟨by decide, by decide⟩).2.2.2⟩

/-- C19, as the claim states it, fails where `size_t` is narrower than 64 bits:
on the 32-bit example platform a frame with the right magic and zero flags that
declares `2 ^ 32` payload bytes, six being left behind the header, is rejected
with the too-large error and not at the bounds check. -/
theorem C19_counterexample :
    exEnv32.headerLen ≤ (BufferReader.over exHuge).rest exEnv32 ∧
      (BufferReader.over exHuge).hdrMagic exEnv32 = exEnv32.ssMagic ∧
      (BufferReader.over exHuge).hdrFlags exEnv32 = 0 ∧
      (BufferReader.over exHuge).hdrSize
        > (BufferReader.over exHuge).rest exEnv32 - exEnv32.headerLen ∧
      (ssLoad exEnv32 (exClass exEnv32) (BufferReader.over exHuge) (3 : Byte) true).err
        = some Err.tooLarge ∧
      (ssLoad exEnv32 (exClass exEnv32) (BufferReader.over exHuge) (3 : Byte) true).err
        ≠ some Err.bounds := by
  decide

/-- C19, amended. Truncated or over-declared payload: at a well-formed cursor
standing at a header with the right magic and zero flags whose declared
`payloadSize` is greater than the number of bytes left behind the header,
protected `ssLoad` fails with the too-large error when the size exceeds the
largest `size_t`, and otherwise with the bounds error of `readRaw(size)`; in
both cases the cursor stays right behind the header (no payload byte is read,
no checksum taken) and the object is not touched. When `size_t` is 64 bits wide
no declared size exceeds the largest `size_t`, so the bounds error is the only
rejection of such frames. -/
theorem C19_overdeclared_payload (E : Env) (D : TypeDesc) (r : BufferReader) (obj : D.T)
    (h : r.WF E) (hlen : E.headerLen ≤ r.rest E) (hmagic : r.hdrMagic E = E.ssMagic)
    (hflags : r.hdrFlags E = 0) (hsize : r.hdrSize > r.rest E - E.headerLen) :
    ssLoad E D r obj true
        = (if r.hdrSize > E.sizeMax then
            { err := some Err.tooLarge, buf := r.skip E.headerLen, obj := obj }
          else { err := some Err.bounds, buf := r.skip E.headerLen, obj := obj }) ∧
      (E.sizeBits = 64 →
        ¬ r.hdrSize > E.sizeMax ∧
          ssLoad E D r obj true
            = { err := some Err.bounds, buf := r.skip E.headerLen, obj := obj }) := by
  have h1 := ssLoad_overdeclared D h obj hlen hmagic hflags hsize
  refine ⟨h1, fun hw => ?_⟩
  have hmax : ¬ r.hdrSize > E.sizeMax := by
    have := r.hdrSize_lt
    unfold Env.sizeMax Env.sizeMod
    rw [hw]
    omega
  rw [if_neg hmax] at h1
  exact ⟨hmax, h1⟩

/-- On the 64-bit example platform a frame declaring seven payload bytes with
six left is rejected at the bounds check. -/
theorem C19_overdeclared_payload_witness :
    (BufferReader.over exShort).WF exEnv ∧
      exEnv.headerLen ≤ (BufferReader.over exShort).rest exEnv ∧
      (BufferReader.over exShort).hdrMagic exEnv = exEnv.ssMagic ∧
      (BufferReader.over exShort).hdrFlags exEnv = 0 ∧
      (BufferReader.over exShort).hdrSize
        > (BufferReader.over exShort).rest exEnv - exEnv.headerLen ∧
      exEnv.sizeBits = 64 ∧
      ¬ (BufferReader.over exShort).hdrSize > exEnv.sizeMax ∧
      ssLoad exEnv (exClass exEnv) (BufferReader.over exShort) (3 : Byte) true
        = { err := some Err.bounds
            buf := (BufferReader.over exShort).skip exEnv.headerLen
            obj := (3 : Byte) } :=
  ⟨BufferReader.WF_over ⟨by decide, by decide⟩, by decide, by decide, by decide, by decide, rfl,
    (C19_overdeclared_payload exEnv (exClass exEnv) (BufferReader.over exShort) (3 : Byte)
      (BufferReader.WF_over ⟨by decide, by decide⟩) (by decide) (by decide) (by decide)
      (by decide)).2 rfl⟩

end SuitableStruct
